import Mathlib

/-!
# marathon: client configuration store and load-balancing HTTP client

A shallow embedding of `config/client_config.go` and `httpclient/http_client.go`.

* Part I models the pieces of the Go runtime the two files rely on:
  `strconv.ParseInt`, `time.ParseDuration`, `time.Duration.String` and the
  `%v` rendering of `fmt.Sprintf`.
* Part II models the property store of `github.com/magiconair/properties`
  that backs both layers of a configuration.
* Part III is `DefaultClientConfig`, Part IV is `LoadBalancerHTTPClient`.

Go strings are Lean strings, read through their list of characters.  The
property store is embedded for texts that hold no `${` reference: on such a
text the library's expansion step hands the text back unchanged, and the store
behaves as a key/value map with a list of keys in order of first insertion.
-/

set_option autoImplicit false

namespace Marathon

/-! ## Part I. Go runtime -/

/-- Whether the characters hold the opening `${` of an expansion reference
(`strings.Index(s, "${") != -1`). -/
def hasRefChars : List Char → Bool
  | [] => false
  | c :: cs => (c == '$' && cs.head? == some '{') || hasRefChars cs

/-- Whether a text holds an expansion reference. -/
def hasRef (s : String) : Bool := hasRefChars s.data

/-- A text without expansion reference: what the embedded property store holds. -/
abbrev PlainText := {s : String // hasRef s = false}

/-- The decimal digits `'0'..'9'`, tested the way the Go parsers do:
`c < '0' || c > '9'` fails. -/
def isDigit (c : Char) : Bool := !(c < '0' || c > '9')

/-- Value of a run of decimal digits, most significant first; `none` when a
character is not a digit (the digit loop of `strconv.ParseUint` in base 10). -/
def digitsValue : List Char → Nat → Option Nat
  | [], n => some n
  | c :: cs, n => if isDigit c then digitsValue cs (n * 10 + (c.toNat - 48)) else none

/-- Go `strconv.ParseInt(s, 10, 64)`: an optional sign, at least one decimal
digit, nothing else, and a value inside the range of `int64`; `none` stands for
a returned error (syntax or range). -/
def ParseInt (s : String) : Option Int :=
  match s.data with
  | [] => none
  | c :: cs =>
    let neg := c == '-'
    let body := if c == '+' || c == '-' then cs else c :: cs
    match body with
    | [] => none
    | _ :: _ =>
      match digitsValue body 0 with
      | none => none
      | some un =>
        if !neg && un ≥ 2 ^ 63 then none
        else if neg && un > 2 ^ 63 then none
        else some (if neg then -(un : Int) else (un : Int))

/-- The function `boolVal` of the properties library: the lower-cased text is
one of `1`, `true`, `yes`, `on`. -/
def boolVal (v : String) : Bool :=
  let v := String.mk (v.data.map Char.toLower)
  v == "1" || v == "true" || v == "yes" || v == "on"

/-- Go `time.Nanosecond`; a `time.Duration` is a count of nanoseconds. -/
def Nanosecond : Nat := 1
/-- Go `time.Microsecond`. -/
def Microsecond : Nat := 1000 * Nanosecond
/-- Go `time.Millisecond`. -/
def Millisecond : Nat := 1000 * Microsecond
/-- Go `time.Second`. -/
def Second : Nat := 1000 * Millisecond
/-- Go `time.Minute`. -/
def Minute : Nat := 60 * Second
/-- Go `time.Hour`. -/
def Hour : Nat := 60 * Minute

/-- Go `fmtFrac` of package `time`: writes the fraction `v / 10^prec` in front
of `buf`, without trailing zeros and without the point when the fraction is
zero; hands back the buffer and `v / 10^prec`. -/
def fmtFrac : Nat → Nat → Bool → List Char → List Char × Nat
  | 0, v, print, buf => (if print then '.' :: buf else buf, v)
  | prec + 1, v, print, buf =>
    let digit := v % 10
    let print := print || digit != 0
    fmtFrac prec (v / 10) print (if print then Nat.digitChar digit :: buf else buf)

/-- Go `fmtInt` of package `time`: writes `v` in decimal in front of `buf`. -/
def fmtInt (buf : List Char) (v : Nat) : List Char := Nat.toDigits 10 v ++ buf

/-- Go `time.Duration.String`, as a list of characters: `72h3m0.5s`, with a
smaller unit below one second and `0s` for zero. -/
def durationChars (d : Int) : List Char :=
  let u := d.natAbs
  let neg := decide (d < 0)
  if u < Second then
    if u = 0 then ['0', 's']
    else
      let (buf, u) :=
        if u < Microsecond then fmtFrac 0 u false ['n', 's']
        else if u < Millisecond then fmtFrac 3 u false ['µ', 's']
        else fmtFrac 6 u false ['m', 's']
      let buf := fmtInt buf u
      if neg then '-' :: buf else buf
  else
    let (buf, u) := fmtFrac 9 u false ['s']
    let buf := fmtInt buf (u % 60)
    let u := u / 60
    let buf :=
      if u > 0 then
        let buf := fmtInt ('m' :: buf) (u % 60)
        let u := u / 60
        if u > 0 then fmtInt ('h' :: buf) u else buf
      else buf
    if neg then '-' :: buf else buf

/-- Go `leadingInt` of package `time`: consumes leading digits; `none` is the
overflow error. -/
def leadingInt : List Char → Nat → Option (Nat × List Char)
  | [], x => some (x, [])
  | c :: cs, x =>
    if c < '0' || c > '9' then some (x, c :: cs)
    else if x > 2 ^ 63 / 10 then none
    else
      let x := x * 10 + (c.toNat - 48)
      if x > 2 ^ 63 then none else leadingInt cs x

/-- Go `leadingFraction` of package `time`: consumes leading digits and stops
accumulating precision on overflow; hands back the digits read as a number,
the matching power of ten and the rest. -/
def leadingFraction : List Char → Nat → Nat → Bool → Nat × Nat × List Char
  | [], x, scale, _ => (x, scale, [])
  | c :: cs, x, scale, overflow =>
    if c < '0' || c > '9' then (x, scale, c :: cs)
    else if overflow then leadingFraction cs x scale overflow
    else if x > (2 ^ 63 - 1) / 10 then leadingFraction cs x scale true
    else
      let y := x * 10 + (c.toNat - 48)
      if y > 2 ^ 63 then leadingFraction cs x scale true
      else leadingFraction cs y (scale * 10) overflow

/-- Go `unitMap` of package `time`. -/
def unitMap (u : List Char) : Option Nat :=
  if u = ['n', 's'] then some Nanosecond
  else if u = ['u', 's'] then some Microsecond
  else if u = ['µ', 's'] then some Microsecond
  else if u = ['μ', 's'] then some Microsecond
  else if u = ['m', 's'] then some Millisecond
  else if u = ['s'] then some Second
  else if u = ['m'] then some Minute
  else if u = ['h'] then some Hour
  else none

/-- Rounding of a positive rational to the nearest binary64 value, ties to
even (the values met here are far from the subnormal and the infinite range). -/
def roundFloat64 (x : ℚ) : ℚ :=
  if x ≤ 0 then 0
  else
    let ulp : ℚ := (2 : ℚ) ^ (Int.log 2 x - 52)
    let t := x / ulp
    let fl := ⌊t⌋
    let r := t - fl
    let m := if r < 1 / 2 then fl else if r > 1 / 2 then fl + 1 else if fl % 2 = 0 then fl else fl + 1
    m * ulp

/-- The Go expression `uint64(float64(f) * (float64(unit) / scale))` of
`time.ParseDuration`. -/
def fracNanos (f unit scale : Nat) : Nat :=
  ⌊roundFloat64 (roundFloat64 f * roundFloat64 ((unit : ℚ) / scale))⌋.toNat

/-- The loop `for s != ""` of Go `time.ParseDuration`: one `[0-9]*(\.[0-9]*)?unit`
term per round, added to `d`; `none` is a returned error.  The sums `v += …`
and `d += v` are sums of `uint64`, taken modulo `2^64`.  Every round consumes
at least the unit, so a fuel above the length of the text is never used up. -/
def parseTerms : Nat → List Char → Nat → Option Nat
  | 0, _, _ => none
  | fuel + 1, s, d =>
    match s with
    | [] => some d
    | c :: _ =>
      if !(c == '.' || isDigit c) then none
      else
        match leadingInt s 0 with
        | none => none
        | some (v, s1) =>
          let pre := s.length != s1.length
          let (f, scale, s2, post) :=
            match s1 with
            | '.' :: t =>
              let (f, scale, r) := leadingFraction t 0 1 false
              (f, scale, r, t.length != r.length)
            | _ => (0, 1, s1, false)
          if !pre && !post then none
          else
            let u := s2.takeWhile (fun c => !(c == '.' || isDigit c))
            let s3 := s2.dropWhile (fun c => !(c == '.' || isDigit c))
            if u = [] then none
            else
              match unitMap u with
              | none => none
              | some unit =>
                if v > 2 ^ 63 / unit then none
                else
                  let v := v * unit
                  let v := if f > 0 then (v + fracNanos f unit scale) % 2 ^ 64 else v
                  if f > 0 && v > 2 ^ 63 then none
                  else
                    let d := (d + v) % 2 ^ 64
                    if d > 2 ^ 63 then none else parseTerms fuel s3 d

/-- Go `time.ParseDuration`: `[-+]?([0-9]*(\.[0-9]*)?[a-z]+)+`, or the text `0`;
the result is a count of nanoseconds, `none` a returned error. -/
def ParseDuration (s : String) : Option Int :=
  let orig := s.data
  let neg := orig.head? == some '-'
  let s := match orig with
    | c :: cs => if c == '-' || c == '+' then cs else orig
    | [] => orig
  if s = ['0'] then some 0
  else if s = [] then none
  else
    match parseTerms (s.length + 1) s 0 with
    | none => none
    | some d =>
      if neg then some (-(d : Int))
      else if d > 2 ^ 63 - 1 then none
      else some (d : Int)

/-- Decimal rendering of a Go `int` by `%v`. -/
def intChars (n : Int) : List Char :=
  if n < 0 then '-' :: Nat.toDigits 10 n.natAbs else Nat.toDigits 10 n.natAbs

/-- No character of the list is the dollar sign. -/
def noDollar (l : List Char) : Prop := ∀ c ∈ l, c ≠ '$'

theorem noDollar_nil : noDollar [] := fun _ hx => absurd hx (List.not_mem_nil _)

theorem noDollar_cons {c : Char} {l : List Char} (hc : c ≠ '$') (hl : noDollar l) :
    noDollar (c :: l) := by
  intro x hx
  rcases List.mem_cons.mp hx with rfl | hx
  · exact hc
  · exact hl x hx

theorem noDollar_append {l₁ l₂ : List Char} (h₁ : noDollar l₁) (h₂ : noDollar l₂) :
    noDollar (l₁ ++ l₂) := by
  intro x hx
  rcases List.mem_append.mp hx with hx | hx
  · exact h₁ x hx
  · exact h₂ x hx

theorem hasRefChars_of_noDollar (l : List Char) (h : noDollar l) : hasRefChars l = false := by
  induction l with
  | nil => rfl
  | cons c cs ih =>
    have hc : c ≠ '$' := h c (List.mem_cons_self _ _)
    have hcs : noDollar cs := fun x hx => h x (List.mem_cons_of_mem _ hx)
    simp [hasRefChars, hc, ih hcs]

theorem digitChar_ne_dollar (n : Nat) : Nat.digitChar n ≠ '$' := by
  by_cases h : n < 16
  · interval_cases n <;> decide
  · have e : Nat.digitChar n = '*' := by
      unfold Nat.digitChar
      repeat (rw [if_neg (by omega)])
    rw [e]; decide

theorem noDollar_toDigitsCore (fuel n : Nat) (ds : List Char) (h : noDollar ds) :
    noDollar (Nat.toDigitsCore 10 fuel n ds) := by
  induction fuel generalizing n ds with
  | zero => simpa [Nat.toDigitsCore] using h
  | succ fuel ih =>
    simp only [Nat.toDigitsCore]
    split_ifs
    · exact noDollar_cons (digitChar_ne_dollar _) h
    · exact ih _ _ (noDollar_cons (digitChar_ne_dollar _) h)

theorem noDollar_toDigits (n : Nat) : noDollar (Nat.toDigits 10 n) :=
  noDollar_toDigitsCore _ _ _ noDollar_nil

theorem noDollar_fmtInt (buf : List Char) (v : Nat) (h : noDollar buf) :
    noDollar (fmtInt buf v) :=
  noDollar_append (noDollar_toDigits v) h

theorem noDollar_fmtFrac (prec v : Nat) (print : Bool) (buf : List Char) (h : noDollar buf) :
    noDollar (fmtFrac prec v print buf).1 := by
  induction prec generalizing v print buf with
  | zero =>
    simp only [fmtFrac]
    split_ifs
    · exact noDollar_cons (by decide) h
    · exact h
  | succ prec ih =>
    simp only [fmtFrac]
    apply ih
    split_ifs
    · exact noDollar_cons (digitChar_ne_dollar _) h
    · exact h

theorem noDollar_intChars (n : Int) : noDollar (intChars n) := by
  unfold intChars
  split_ifs
  · exact noDollar_cons (by decide) (noDollar_toDigits _)
  · exact noDollar_toDigits _

theorem noDollar_durationChars (d : Int) : noDollar (durationChars d) := by
  unfold durationChars
  simp only []
  split_ifs
  all_goals
    repeat (first
      | exact noDollar_nil
      | apply noDollar_cons (by decide)
      | apply noDollar_fmtInt
      | apply noDollar_fmtFrac)

/-- A Go value handed to the property store as `interface{}`: the kinds the
configuration stores, and any other value, given by its `%v` rendering. -/
inductive Value where
  | int (n : Int)
  | bool (b : Bool)
  | string (s : PlainText)
  | duration (d : Int)
  | other (rendered : PlainText)
  deriving DecidableEq

/-- Go `fmt.Sprintf("%v", value)`. -/
def Sprintv : Value → PlainText
  | .int n => ⟨String.mk (intChars n), hasRefChars_of_noDollar _ (noDollar_intChars n)⟩
  | .bool b => if b then ⟨"true", by decide⟩ else ⟨"false", by decide⟩
  | .string s => s
  | .duration d => ⟨String.mk (durationChars d), hasRefChars_of_noDollar _ (noDollar_durationChars d)⟩
  | .other rendered => rendered

/-! ## Part II. The property store (`github.com/magiconair/properties`) -/

/-- The store `properties.Properties`: the map `m` together with the key list
`k`, as the list of entries in order of first insertion.  The expansion
delimiters are the library's defaults, `${` and `}`. -/
structure Properties where
  entries : List (String × PlainText)
  deriving DecidableEq

/-- Library `properties.NewProperties`. -/
def NewProperties : Properties := ⟨[]⟩

/-- The map read `p.m[key]`. -/
def Properties.lookup (p : Properties) (key : String) : Option PlainText :=
  p.entries.lookup key

/-- Library `Properties.Keys`: the keys in order of first insertion. -/
def Properties.Keys (p : Properties) : List String := p.entries.map Prod.fst

/-- Library `Properties.Get`: the stored text, expanded; a text without
reference expands to itself. -/
def Properties.Get (p : Properties) (key : String) : Option PlainText := p.lookup key

/-- Library `Properties.Set`: nothing happens for the empty key; a present key
keeps its place and takes the new text, a new key is appended.  The check for
circular references cannot fail on a text without reference. -/
def Properties.Set (p : Properties) (key : String) (value : PlainText) : Properties :=
  if key = "" then p
  else
    match p.Get key with
    | some _ => ⟨p.entries.map (fun e => if e.1 = key then (e.1, value) else e)⟩
    | none => ⟨p.entries ++ [(key, value)]⟩

/-- Library `Properties.SetValue`: `p.Set(key, fmt.Sprintf("%v", value))`. -/
def Properties.SetValue (p : Properties) (key : String) (value : Value) : Properties :=
  p.Set key (Sprintv value)

/-- Library `Properties.GetString`. -/
def Properties.GetString (p : Properties) (key : String) (dflt : String) : String :=
  match p.Get key with
  | some v => v.val
  | none => dflt

/-- Library `Properties.GetInt`: the default when the key is missing or
`strconv.ParseInt` returns an error (on a platform where `int` has 64 bits, so
that the range check on the result passes). -/
def Properties.GetInt (p : Properties) (key : String) (dflt : Int) : Int :=
  match p.Get key with
  | some v =>
    match ParseInt v.val with
    | some n => n
    | none => dflt
  | none => dflt

/-- Library `Properties.GetBool`: the default only when the key is missing;
a stored text is read by `boolVal`. -/
def Properties.GetBool (p : Properties) (key : String) (dflt : Bool) : Bool :=
  match p.Get key with
  | some v => boolVal v.val
  | none => dflt

/-- Library `Properties.GetParsedDuration`: the default when the key is missing
or `time.ParseDuration` returns an error. -/
def Properties.GetParsedDuration (p : Properties) (key : String) (dflt : Int) : Int :=
  match p.Get key with
  | some v =>
    match ParseDuration v.val with
    | some d => d
    | none => dflt
  | none => dflt

/-- Go `strings.HasPrefix(k, pfx)`. -/
def hasPrefix (k pfx : String) : Bool := pfx.data.isPrefixOf k.data

/-- The empty text. -/
def emptyText : PlainText := ⟨"", by decide⟩

/-- Library `Properties.FilterStripPrefix`: a new store with the keys that are
longer than the given start and begin with it, the start removed, each with the
text `p.m[k]`. -/
def Properties.FilterStripPrefix (p : Properties) (pfx : String) : Properties :=
  p.Keys.foldl
    (fun pp k =>
      if k.data.length > pfx.data.length && hasPrefix k pfx then
        pp.Set (String.mk (k.data.drop pfx.data.length)) ((p.lookup k).getD emptyText)
      else pp)
    NewProperties

theorem hasRef_GetString (p : Properties) (key : String) (dflt : PlainText) :
    hasRef (p.GetString key dflt.val) = false := by
  unfold Properties.GetString
  cases p.Get key with
  | none => exact dflt.property
  | some v => exact v.property

/-! ## Part III. `config.DefaultClientConfig` -/

/-! ### The option table

The constants of package `config` (the option keys and their defaults) are
declared outside the two source files; they are taken from the option table of
the specification, one row each. -/

/-- Modelled from the spec: the constant `config.EnableConnectionPool`, missing from the source files, is the key of the option table row `enableConnectionPool | bool | true`. -/
def EnableConnectionPool : String := "enableConnectionPool"
/-- Modelled from the spec: the constant `config.DefaultEnableConnectionPool`, missing from the source files, is the default of the option table row `enableConnectionPool | bool | true`. -/
def DefaultEnableConnectionPool : Bool := true

/-- Modelled from the spec: the constant `config.MaxConnectionsPerHost`, missing from the source files, is the key of the option table row `maxConnectionsPerHost | int | 50`. -/
def MaxConnectionsPerHost : String := "maxConnectionsPerHost"
/-- Modelled from the spec: the constant `config.DefaultMaxConnectionsPerHost`, missing from the source files, is the default of the option table row `maxConnectionsPerHost | int | 50`. -/
def DefaultMaxConnectionsPerHost : Int := 50

/-- Modelled from the spec: the constant `config.MaxTotalConnections`, missing from the source files, is the key of the option table row `maxTotalConnections | int | 200`. -/
def MaxTotalConnections : String := "maxTotalConnections"
/-- Modelled from the spec: the constant `config.DefaultMaxTotalConnections`, missing from the source files, is the default of the option table row `maxTotalConnections | int | 200`. -/
def DefaultMaxTotalConnections : Int := 200

/-- Modelled from the spec: the constant `config.ConnectTimeout`, missing from the source files, is the key of the option table row `connectTimeout | duration | 2s`. -/
def ConnectTimeout : String := "connectTimeout"
/-- Modelled from the spec: the constant `config.DefaultConnectTimeout`, missing from the source files, is the default of the option table row `connectTimeout | duration | 2s`. -/
def DefaultConnectTimeout : Int := 2 * Second

/-- Modelled from the spec: the constant `config.ReadWriteTimeout`, missing from the source files, is the key of the option table row `readWriteTimeout | duration | 5s`. -/
def ReadWriteTimeout : String := "readWriteTimeout"
/-- Modelled from the spec: the constant `config.DefaultReadWriteTimeout`, missing from the source files, is the default of the option table row `readWriteTimeout | duration | 5s`. -/
def DefaultReadWriteTimeout : Int := 5 * Second

/-- Modelled from the spec: the constant `config.RequestTimeout`, missing from the source files, is the key of the option table row `requestTimeout | duration | 10s`. -/
def RequestTimeout : String := "requestTimeout"
/-- Modelled from the spec: the constant `config.DefaultRequestTimeout`, missing from the source files, is the default of the option table row `requestTimeout | duration | 10s`. -/
def DefaultRequestTimeout : Int := 10 * Second

/-- Modelled from the spec: the constant `config.MaxAutoRetries`, missing from the source files, is the key of the option table row `maxAutoRetries | int | 0`. -/
def MaxAutoRetries : String := "maxAutoRetries"
/-- Modelled from the spec: the constant `config.DefaultMaxAutoRetries`, missing from the source files, is the default of the option table row `maxAutoRetries | int | 0`. -/
def DefaultMaxAutoRetries : Int := 0

/-- Modelled from the spec: the constant `config.MaxAutoRetriesNextServer`, missing from the source files, is the key of the option table row `maxAutoRetriesNextServer | int | 1`. -/
def MaxAutoRetriesNextServer : String := "maxAutoRetriesNextServer"
/-- Modelled from the spec: the constant `config.DefaultMaxAutoRetriesNextServer`, missing from the source files, is the default of the option table row `maxAutoRetriesNextServer | int | 1`. -/
def DefaultMaxAutoRetriesNextServer : Int := 1

/-- Modelled from the spec: the constant `config.OKToRetryOnAllOperations`, missing from the source files, is the key of the option table row `okToRetryOnAllOperations | bool | false`. -/
def OKToRetryOnAllOperations : String := "okToRetryOnAllOperations"
/-- Modelled from the spec: the constant `config.DefaultOKToRetryOnAllOperations`, missing from the source files, is the default of the option table row `okToRetryOnAllOperations | bool | false`. -/
def DefaultOKToRetryOnAllOperations : Bool := false

/-- Modelled from the spec: the constant `config.ListOfServers`, missing from the source files, is the key of the option table row `listOfServers | string | ""`. -/
def ListOfServers : String := "listOfServers"
/-- Modelled from the spec: the constant `config.DefaultListOfServers`, missing from the source files, is the default of the option table row `listOfServers | string | ""`. -/
def DefaultListOfServers : PlainText := ⟨"", by decide⟩

/-- Modelled from the spec: the constant `config.ListOfServersPollingInterval`, missing from the source files, is the key of the option table row `listOfServersPollingInterval | duration | 30s`. -/
def ListOfServersPollingInterval : String := "listOfServersPollingInterval"
/-- Modelled from the spec: the constant `config.DefaultListOfServersPollingInterval`, missing from the source files, is the default of the option table row `listOfServersPollingInterval | duration | 30s`. -/
def DefaultListOfServersPollingInterval : Int := 30 * Second

/-- Modelled from the spec: the constant `config.Port`, missing from the source files, is the key of the option table row `port | int | 80`. -/
def Port : String := "port"
/-- Modelled from the spec: the constant `config.DefaultPort`, missing from the source files, is the default of the option table row `port | int | 80`. -/
def DefaultPort : Int := 80

/-- Modelled from the spec: the constant `config.ConnectionFailureThreshold`, missing from the source files, is the key of the option table row `connectionFailureThreshold | int | 3`. -/
def ConnectionFailureThreshold : String := "connectionFailureThreshold"
/-- Modelled from the spec: the constant `config.DefaultConnectionFailureThreshold`, missing from the source files, is the default of the option table row `connectionFailureThreshold | int | 3`. -/
def DefaultConnectionFailureThreshold : Int := 3

/-- Modelled from the spec: the constant `config.CircuitTrippedTimeoutFactor`, missing from the source files, is the key of the option table row `circuitTrippedTimeoutFactor | int | 10`. -/
def CircuitTrippedTimeoutFactor : String := "circuitTrippedTimeoutFactor"
/-- Modelled from the spec: the constant `config.DefaultCircuitTrippedTimeoutFactor`, missing from the source files, is the default of the option table row `circuitTrippedTimeoutFactor | int | 10`. -/
def DefaultCircuitTrippedTimeoutFactor : Int := 10

/-- Modelled from the spec: the constant `config.CircuitTripMaxTimeout`, missing from the source files, is the key of the option table row `circuitTripMaxTimeout | duration | 30s`. -/
def CircuitTripMaxTimeout : String := "circuitTripMaxTimeout"
/-- Modelled from the spec: the constant `config.DefaultCircuitTripMaxTimeout`, missing from the source files, is the default of the option table row `circuitTripMaxTimeout | duration | 30s`. -/
def DefaultCircuitTripMaxTimeout : Int := 30 * Second

/-- Modelled from the spec: the constant `config.PingInterval`, missing from the source files, is the key of the option table row `pingInterval | duration | 10s`. -/
def PingInterval : String := "pingInterval"
/-- Modelled from the spec: the constant `config.DefaultPingInterval`, missing from the source files, is the default of the option table row `pingInterval | duration | 10s`. -/
def DefaultPingInterval : Int := 10 * Second

/-- Modelled from the spec: the constant `config.PingStrategy`, missing from the source files, is the key of the option table row `pingStrategy | string | "serial"`. -/
def PingStrategy : String := "pingStrategy"
/-- Modelled from the spec: the constant `config.DefaultPingStrategy`, missing from the source files, is the default of the option table row `pingStrategy | string | "serial"`. -/
def DefaultPingStrategy : PlainText := ⟨"serial", by decide⟩

/-- Modelled from the spec: the constant `config.LoadBalancerRule`, missing from the source files, is the key of the option table row `loadBalancerRule | string | "RoundRobin"`. -/
def LoadBalancerRule : String := "loadBalancerRule"
/-- Modelled from the spec: the constant `config.DefaultLoadBalancerRule`, missing from the source files, is the default of the option table row `loadBalancerRule | string | "RoundRobin"`. -/
def DefaultLoadBalancerRule : PlainText := ⟨"RoundRobin", by decide⟩

/-- Modelled from the spec: the constant `config.LoadBalancerKey`, missing from the source files, is the key of the option table row `loadBalancerKey | string | ""`. -/
def LoadBalancerKey : String := "loadBalancerKey"
/-- Modelled from the spec: the constant `config.DefaultLoadBalancerKey`, missing from the source files, is the default of the option table row `loadBalancerKey | string | ""`. -/
def DefaultLoadBalancerKey : PlainText := ⟨"", by decide⟩

/-- Modelled from the spec: the constant `config.ConcurrencyRateLimitSwitch`, missing from the source files, is the key of the option table row `concurrencyRateLimitSwitch | bool | false`. -/
def ConcurrencyRateLimitSwitch : String := "concurrencyRateLimitSwitch"
/-- Modelled from the spec: the constant `config.DefaultConcurrencyRateLimitSwitch`, missing from the source files, is the default of the option table row `concurrencyRateLimitSwitch | bool | false`. -/
def DefaultConcurrencyRateLimitSwitch : Bool := false

/-- Modelled from the spec: the constant `config.TokenBucketRateLimitSwitch`, missing from the source files, is the key of the option table row `tokenBucketRateLimitSwitch | bool | false`. -/
def TokenBucketRateLimitSwitch : String := "tokenBucketRateLimitSwitch"
/-- Modelled from the spec: the constant `config.DefaultTokenBucketRateLimitSwitch`, missing from the source files, is the default of the option table row `tokenBucketRateLimitSwitch | bool | false`. -/
def DefaultTokenBucketRateLimitSwitch : Bool := false

/-- Modelled from the spec: the constant `config.TokenBucketCapacity`, missing from the source files, is the key of the option table row `tokenBucketCapacity | int | 100`. -/
def TokenBucketCapacity : String := "tokenBucketCapacity"
/-- Modelled from the spec: the constant `config.DefaultTokenBucketCapacity`, missing from the source files, is the default of the option table row `tokenBucketCapacity | int | 100`. -/
def DefaultTokenBucketCapacity : Int := 100

/-- Modelled from the spec: the constant `config.TokenBucketFillInterval`, missing from the source files, is the key of the option table row `tokenBucketFillInterval | duration | 100ms`. -/
def TokenBucketFillInterval : String := "tokenBucketFillInterval"
/-- Modelled from the spec: the constant `config.DefaultTokenBucketFillInterval`, missing from the source files, is the default of the option table row `tokenBucketFillInterval | duration | 100ms`. -/
def DefaultTokenBucketFillInterval : Int := 100 * Millisecond

/-- Modelled from the spec: the constant `config.TokenBucketFillCount`, missing from the source files, is the key of the option table row `tokenBucketFillCount | int | 10`. -/
def TokenBucketFillCount : String := "tokenBucketFillCount"
/-- Modelled from the spec: the constant `config.DefaultTokenBucketFillCount`, missing from the source files, is the default of the option table row `tokenBucketFillCount | int | 10`. -/
def DefaultTokenBucketFillCount : Int := 10

/-- Modelled from the spec: the constant `config.LeakyBucketRateLimitSwitch`, missing from the source files, is the key of the option table row `leakyBucketRateLimitSwitch | bool | false`. -/
def LeakyBucketRateLimitSwitch : String := "leakyBucketRateLimitSwitch"
/-- Modelled from the spec: the constant `config.DefaultLeakyBucketRateLimitSwitch`, missing from the source files, is the default of the option table row `leakyBucketRateLimitSwitch | bool | false`. -/
def DefaultLeakyBucketRateLimitSwitch : Bool := false

/-- Modelled from the spec: the constant `config.LeakyBucketCapacity`, missing from the source files, is the key of the option table row `leakyBucketCapacity | int | 100`. -/
def LeakyBucketCapacity : String := "leakyBucketCapacity"
/-- Modelled from the spec: the constant `config.DefaultLeakyBucketCapacity`, missing from the source files, is the default of the option table row `leakyBucketCapacity | int | 100`. -/
def DefaultLeakyBucketCapacity : Int := 100

/-- Modelled from the spec: the constant `config.LeakyBucketInterval`, missing from the source files, is the key of the option table row `leakyBucketInterval | duration | 10ms`. -/
def LeakyBucketInterval : String := "leakyBucketInterval"
/-- Modelled from the spec: the constant `config.DefaultLeakyBucketInterval`, missing from the source files, is the default of the option table row `leakyBucketInterval | duration | 10ms`. -/
def DefaultLeakyBucketInterval : Int := 10 * Millisecond

/-- Modelled from the spec: the constant `config.RequestCountsSlidingWindowSize`, missing from the source files, is the key of the option table row `requestCountsSlidingWindowSize | int | 60`. -/
def RequestCountsSlidingWindowSize : String := "requestCountsSlidingWindowSize"
/-- Modelled from the spec: the constant `config.DefaultRequestCountsSlidingWindowSize`, missing from the source files, is the default of the option table row `requestCountsSlidingWindowSize | int | 60`. -/
def DefaultRequestCountsSlidingWindowSize : Int := 60

/-- Modelled from the spec: the constant `config.ResponseTimeWindowSize`, missing from the source files, is the key of the option table row `responseTimeWindowSize | int | 1000`. -/
def ResponseTimeWindowSize : String := "responseTimeWindowSize"
/-- Modelled from the spec: the constant `config.DefaultResponseTimeWindowSize`, missing from the source files, is the default of the option table row `responseTimeWindowSize | int | 1000`. -/
def DefaultResponseTimeWindowSize : Int := 1000

/-- The struct `DefaultClientConfig`. -/
structure DefaultClientConfig where
  InternalProperties : Properties
  ExternalProperties : Properties
  clientName : String
  deriving DecidableEq

namespace DefaultClientConfig

/-- The method `SetClientName`. -/
def SetClientName (c : DefaultClientConfig) (clientName : String) : DefaultClientConfig :=
  { c with clientName := clientName }

/-- The method `GetClientName`. -/
def GetClientName (c : DefaultClientConfig) : String := c.clientName

/-- The method `setPropertyInternal`. -/
def setPropertyInternal (c : DefaultClientConfig) (propName : String) (value : Value) :
    DefaultClientConfig :=
  { c with InternalProperties := c.InternalProperties.SetValue propName value }

/-- The method `putDefaultIntegerProperty`. -/
def putDefaultIntegerProperty (c : DefaultClientConfig) (propName : String) (defaultValue : Int) :
    DefaultClientConfig :=
  let value := c.ExternalProperties.GetInt propName defaultValue
  c.setPropertyInternal propName (.int value)

/-- The method `putDefaultBoolProperty`. -/
def putDefaultBoolProperty (c : DefaultClientConfig) (propName : String) (defaultValue : Bool) :
    DefaultClientConfig :=
  let value := c.ExternalProperties.GetBool propName defaultValue
  c.setPropertyInternal propName (.bool value)

/-- The method `putDefaultStringProperty`. -/
def putDefaultStringProperty (c : DefaultClientConfig) (propName : String)
    (defaultValue : PlainText) : DefaultClientConfig :=
  let value := c.ExternalProperties.GetString propName defaultValue.val
  c.setPropertyInternal propName
    (.string ⟨value, hasRef_GetString c.ExternalProperties propName defaultValue⟩)

/-- The method `putDefaultDurationProperty`. -/
def putDefaultDurationProperty (c : DefaultClientConfig) (propName : String)
    (defaultValue : Int) : DefaultClientConfig :=
  let value := c.ExternalProperties.GetParsedDuration propName defaultValue
  c.setPropertyInternal propName (.duration value)

/-- The method `LoadDefaultValues`: the 29 calls of the source, in source order. -/
def LoadDefaultValues (c : DefaultClientConfig) : DefaultClientConfig :=
  let c := c.putDefaultBoolProperty EnableConnectionPool DefaultEnableConnectionPool
  let c := c.putDefaultIntegerProperty MaxConnectionsPerHost DefaultMaxConnectionsPerHost
  let c := c.putDefaultIntegerProperty MaxTotalConnections DefaultMaxTotalConnections
  let c := c.putDefaultDurationProperty ConnectTimeout DefaultConnectTimeout
  let c := c.putDefaultDurationProperty ReadWriteTimeout DefaultReadWriteTimeout
  let c := c.putDefaultIntegerProperty MaxAutoRetries DefaultMaxAutoRetries
  let c := c.putDefaultIntegerProperty MaxAutoRetriesNextServer DefaultMaxAutoRetriesNextServer
  let c := c.putDefaultBoolProperty OKToRetryOnAllOperations DefaultOKToRetryOnAllOperations
  let c := c.putDefaultIntegerProperty Port DefaultPort
  let c := c.putDefaultStringProperty ListOfServers DefaultListOfServers
  let c := c.putDefaultIntegerProperty ConnectionFailureThreshold DefaultConnectionFailureThreshold
  let c := c.putDefaultIntegerProperty CircuitTrippedTimeoutFactor DefaultCircuitTrippedTimeoutFactor
  let c := c.putDefaultDurationProperty CircuitTripMaxTimeout DefaultCircuitTripMaxTimeout
  let c := c.putDefaultDurationProperty PingInterval DefaultPingInterval
  let c := c.putDefaultStringProperty PingStrategy DefaultPingStrategy
  let c := c.putDefaultStringProperty LoadBalancerRule DefaultLoadBalancerRule
  let c := c.putDefaultStringProperty LoadBalancerKey DefaultLoadBalancerKey
  let c := c.putDefaultDurationProperty RequestTimeout DefaultRequestTimeout
  let c := c.putDefaultDurationProperty ListOfServersPollingInterval DefaultListOfServersPollingInterval
  let c := c.putDefaultBoolProperty ConcurrencyRateLimitSwitch DefaultConcurrencyRateLimitSwitch
  let c := c.putDefaultBoolProperty TokenBucketRateLimitSwitch DefaultTokenBucketRateLimitSwitch
  let c := c.putDefaultIntegerProperty TokenBucketCapacity DefaultTokenBucketCapacity
  let c := c.putDefaultDurationProperty TokenBucketFillInterval DefaultTokenBucketFillInterval
  let c := c.putDefaultIntegerProperty TokenBucketFillCount DefaultTokenBucketFillCount
  let c := c.putDefaultBoolProperty LeakyBucketRateLimitSwitch DefaultLeakyBucketRateLimitSwitch
  let c := c.putDefaultIntegerProperty LeakyBucketCapacity DefaultLeakyBucketCapacity
  let c := c.putDefaultDurationProperty LeakyBucketInterval DefaultLeakyBucketInterval
  let c := c.putDefaultIntegerProperty RequestCountsSlidingWindowSize DefaultRequestCountsSlidingWindowSize
  let c := c.putDefaultIntegerProperty ResponseTimeWindowSize DefaultResponseTimeWindowSize
  c

/-- The method `LoadProperties`. -/
def LoadProperties (c : DefaultClientConfig) (clientName : String) : DefaultClientConfig :=
  let c := c.SetClientName clientName
  let c := c.LoadDefaultValues
  let props := c.ExternalProperties.FilterStripPrefix (clientName ++ ".")
  props.Keys.foldl
    (fun c key =>
      let value := props.GetString key ""
      c.setPropertyInternal key (.string ⟨value, hasRef_GetString props key emptyText⟩))
    c

/-- The method `GetPropertyAsInteger`. -/
def GetPropertyAsInteger (c : DefaultClientConfig) (configKey : String) (defaultValue : Int) : Int :=
  c.InternalProperties.GetInt configKey defaultValue

/-- The method `GetPropertyAsString`. -/
def GetPropertyAsString (c : DefaultClientConfig) (configKey : String) (defaultValue : String) :
    String :=
  c.InternalProperties.GetString configKey defaultValue

/-- The method `GetPropertyAsBool`. -/
def GetPropertyAsBool (c : DefaultClientConfig) (configKey : String) (defaultValue : Bool) : Bool :=
  c.InternalProperties.GetBool configKey defaultValue

/-- The method `GetPropertyAsDuration`. -/
def GetPropertyAsDuration (c : DefaultClientConfig) (configKey : String) (defaultValue : Int) :
    Int :=
  c.InternalProperties.GetParsedDuration configKey defaultValue

end DefaultClientConfig

/-- The constructor `NewDefaultClientConfig`; `none` is the nil pointer. -/
def NewDefaultClientConfig (clientName : String) (props : Option Properties) :
    DefaultClientConfig :=
  let props := match props with
    | none => NewProperties
    | some p => p
  let cfg : DefaultClientConfig :=
    { InternalProperties := NewProperties
      ExternalProperties := props
      clientName := clientName }
  cfg.LoadProperties clientName

/-- Modelled from the spec: the error classes of package `errors`, missing from
the source files, are the ones the caller can tell apart: `NoAvailableServer`,
`Throttled{Concurrency|Token|Leaky|ServerThrottled}`, `General`, `Cancelled`,
`Timeout`, `TransportError`.  The source names `General` and `ServerThrottled`. -/
inductive ErrorType where
  | NoAvailableServer
  | ConcurrencyThrottled
  | TokenThrottled
  | LeakyThrottled
  | ServerThrottled
  | General
  | Cancelled
  | Timeout
  | TransportError
  deriving DecidableEq

/-- A Go `error` value: an error that only carries a message (what `fmt.Errorf`
builds, what the HTTP transport reports), or a client error of package `errors`. -/
inductive GoError where
  | message (msg : String)
  | client (errorType : ErrorType) (cause : GoError)
  deriving DecidableEq

/-- Go `fmt.Errorf` with the format already filled in. -/
def Errorf (msg : String) : GoError := .message msg

/-- Modelled from the spec: `errors.NewClientError`, missing from the source
files, builds the client error that carries the given class and cause. -/
def NewClientError (errorType : ErrorType) (err : GoError) : GoError := .client errorType err

/-- The class of a client error; an error that is not a client error has none. -/
def GoError.errorType? : GoError → Option ErrorType
  | .message _ => none
  | .client t _ => some t

/-- Go `context.Context`, by identity. -/
structure Context where
  id : Nat
  deriving DecidableEq

/-- Go `http.Request`, as far as the default hook reads it. -/
structure http.Request where
  Method : String
  Host : String
  Path : String
  RawQuery : String
  deriving DecidableEq

/-- Go `http.Response`. -/
structure http.Response where
  StatusCode : Int
  Body : String
  deriving DecidableEq

/-- Go `http.StatusBadGateway`. -/
def http.StatusBadGateway : Int := 502
/-- Go `http.StatusServiceUnavailable`. -/
def http.StatusServiceUnavailable : Int := 503
/-- Go `http.StatusGatewayTimeout`. -/
def http.StatusGatewayTimeout : Int := 504

/-- The struct `HTTPRequest`, declared outside the two source files: it embeds
the raw `*http.Request` (`request.Request`), `none` being the nil pointer. -/
structure HTTPRequest where
  Request : Option http.Request
  deriving DecidableEq

/-- Modelled from the spec: the accessor `HTTPRequest.GetRawRequest`, missing
from the source files, hands back the embedded raw request. -/
def HTTPRequest.GetRawRequest (r : HTTPRequest) : Option http.Request := r.Request

/-- The struct `HTTPResponse`, declared outside the two source files: it embeds
the raw `*http.Response` (`response.Response`). -/
structure HTTPResponse where
  Response : Option http.Response
  deriving DecidableEq

/-- Modelled from the spec: the constructor `NewHTTPResponse`, missing from the
source files, wraps the raw response. -/
def NewHTTPResponse (response : http.Response) : HTTPResponse := ⟨some response⟩

/-- What `http.Client.Do` returns: a response and no error, or an error (with
which the response is ignored). -/
inductive TransportResult where
  | ok (response : http.Response)
  | failed (response : Option http.Response) (err : GoError)
  deriving DecidableEq

/-- The type `BeforeHTTPHook`: a hook function, by name.  The embedding records
the calls of a hook and their arguments, not what the function does. -/
structure BeforeHTTPHook where
  name : String
  deriving DecidableEq

/-- The type `AfterHTTHook`: a hook function, by name. -/
structure AfterHTTHook where
  name : String
  deriving DecidableEq

/-- The default after-hook `loggerHook`, which writes the log line. -/
def loggerHook : AfterHTTHook := ⟨"loggerHook"⟩

/-- The calls a method makes to its collaborators, in order. -/
inductive Event where
  | beforeHook (h : BeforeHTTPHook) (ctx : Context) (req : Option http.Request)
  | afterHook (h : AfterHTTHook) (ctx : Context) (req : Option http.Request)
      (resp : Option http.Response) (err : Option GoError)
  | executeWithLoadBalancer (ctx : Context) (request : HTTPRequest)
  | clientDo (req : Option http.Request)
  deriving DecidableEq

/-- What a method did and returned: its calls, and the pair of response and
error (`none` is nil). -/
structure Outcome (α : Type) where
  events : List Event
  resp : Option α
  err : Option GoError

/-- The timeouts of the `transport.Transport` the constructor builds. -/
structure Transport where
  ConnectTimeout : Int
  ReadWriteTimeout : Int
  RequestTimeout : Int
  deriving DecidableEq

/-- The struct `LoadBalancerHTTPClient`.  Its embedded `*http.Client` and
`*loadbalancer.BaseLoadBalancerClient` are collaborators: the methods that call
them take their behaviour as an argument. -/
structure LoadBalancerHTTPClient where
  HTTPClientName : String
  Transport : Transport
  BeforeHooks : List BeforeHTTPHook
  AfterHooks : List AfterHTTHook
  deriving DecidableEq

/-- The constructor `NewHTTPLoadBalancerClient`. -/
def NewHTTPLoadBalancerClient (clientConfig : DefaultClientConfig) : LoadBalancerHTTPClient :=
  let trans : Transport :=
    { ConnectTimeout := clientConfig.GetPropertyAsDuration ConnectTimeout DefaultConnectTimeout
      ReadWriteTimeout := clientConfig.GetPropertyAsDuration ReadWriteTimeout DefaultReadWriteTimeout
      RequestTimeout := clientConfig.GetPropertyAsDuration RequestTimeout DefaultRequestTimeout }
  { HTTPClientName := clientConfig.GetClientName
    Transport := trans
    BeforeHooks := []
    AfterHooks := [loggerHook] }

namespace LoadBalancerHTTPClient

/-- The method `RegisterBeforeHook`. -/
def RegisterBeforeHook (c : LoadBalancerHTTPClient) (hooks : List BeforeHTTPHook) :
    LoadBalancerHTTPClient :=
  { c with BeforeHooks := c.BeforeHooks ++ hooks }

/-- The method `RegisterAfterHook`. -/
def RegisterAfterHook (c : LoadBalancerHTTPClient) (hooks : List AfterHTTHook) :
    LoadBalancerHTTPClient :=
  { c with AfterHooks := c.AfterHooks ++ hooks }

/-- The method `ExecuteHTTP`; `convertError` is `errors.ConvertError` and
`clientDo` the embedded `http.Client.Do`, both declared elsewhere. -/
def ExecuteHTTP (_c : LoadBalancerHTTPClient) (convertError : GoError → GoError)
    (clientDo : Option http.Request → TransportResult) (request : HTTPRequest) :
    Outcome HTTPResponse :=
  let events := [Event.clientDo request.GetRawRequest]
  match clientDo request.GetRawRequest with
  | .failed _ err => ⟨events, none, some (convertError err)⟩
  | .ok response =>
    if response.StatusCode = http.StatusBadGateway ||
        response.StatusCode = http.StatusServiceUnavailable ||
        response.StatusCode = http.StatusGatewayTimeout then
      ⟨events, none,
        some (NewClientError .ServerThrottled
          (Errorf ("http status code = " ++ String.mk (intChars response.StatusCode))))⟩
    else ⟨events, some (NewHTTPResponse response), none⟩

end LoadBalancerHTTPClient

/-! ## Lemmas on the property store -/

theorem lookup_cons_eq (a : String) (b : PlainText) (l : List (String × PlainText)) :
    List.lookup a ((a, b) :: l) = some b := by
  simp [List.lookup]

theorem lookup_cons_ne {k a : String} (b : PlainText) (l : List (String × PlainText))
    (h : k ≠ a) : List.lookup k ((a, b) :: l) = List.lookup k l := by
  have hk : (k == a) = false := by simpa using h
  simp [List.lookup, hk]

theorem lookup_map_replace (l : List (String × PlainText)) (key k : String) (v : PlainText) :
    List.lookup k (l.map (fun e => if e.1 = key then (e.1, v) else e)) =
      if k = key then (List.lookup key l).map (fun _ => v) else List.lookup k l := by
  induction l with
  | nil => simp
  | cons e l ih =>
    obtain ⟨a, b⟩ := e
    rw [List.map_cons]
    by_cases ha : a = key
    · subst ha
      have e1 : (if (a, b).1 = a then ((a, b).1, v) else (a, b)) = (a, v) := by simp
      rw [e1]
      by_cases hk : k = a
      · subst hk
        rw [lookup_cons_eq, lookup_cons_eq, if_pos rfl]; rfl
      · rw [lookup_cons_ne _ _ hk, ih, if_neg hk, if_neg hk, lookup_cons_ne _ _ hk]
    · have e1 : (if (a, b).1 = key then ((a, b).1, v) else (a, b)) = (a, b) := by simp [ha]
      rw [e1]
      by_cases hk : k = key
      · subst hk
        rw [lookup_cons_ne _ _ (Ne.symm ha), ih, if_pos rfl, if_pos rfl,
          lookup_cons_ne _ _ (Ne.symm ha)]
      · rw [if_neg hk]
        by_cases hka : k = a
        · subst hka
          rw [lookup_cons_eq, lookup_cons_eq]
        · rw [lookup_cons_ne _ _ hka, lookup_cons_ne _ _ hka, ih, if_neg hk]

theorem lookup_append_single (l : List (String × PlainText)) (key k : String) (v : PlainText) :
    List.lookup k (l ++ [(key, v)]) =
      match List.lookup k l with
      | some w => some w
      | none => if k = key then some v else none := by
  induction l with
  | nil =>
    rw [List.nil_append]
    by_cases hk : k = key
    · subst hk
      rw [lookup_cons_eq]; simp
    · rw [lookup_cons_ne _ _ hk]; simp [hk]
  | cons e l ih =>
    obtain ⟨a, b⟩ := e
    rw [List.cons_append]
    by_cases hk : k = a
    · subst hk
      rw [lookup_cons_eq, lookup_cons_eq]
    · rw [lookup_cons_ne _ _ hk, lookup_cons_ne _ _ hk, ih]

/-- Reading after writing: `Set` changes what is read at its key, unless the key is empty. -/
theorem Properties.lookup_Set (p : Properties) (key k : String) (v : PlainText) :
    (p.Set key v).lookup k = if key ≠ "" ∧ k = key then some v else p.lookup k := by
  unfold Properties.Set
  by_cases hkey : key = ""
  · simp [hkey]
  · simp only [if_neg hkey, Properties.Get, Properties.lookup]
    cases hl : List.lookup key p.entries with
    | none =>
      simp only [lookup_append_single]
      by_cases hk : k = key
      · subst hk; simp [hl, hkey]
      · simp only [hk, and_false, if_false]
        cases List.lookup k p.entries <;> rfl
    | some w =>
      simp only [lookup_map_replace]
      by_cases hk : k = key
      · subst hk; simp [hl, hkey]
      · simp [hk]

theorem Properties.mem_Keys_iff (p : Properties) (k : String) :
    k ∈ p.Keys ↔ (p.lookup k).isSome = true := by
  unfold Properties.Keys Properties.lookup
  induction p.entries with
  | nil => simp
  | cons e l ih =>
    obtain ⟨a, b⟩ := e
    by_cases hk : k = a
    · subst hk
      rw [lookup_cons_eq]; simp
    · rw [lookup_cons_ne _ _ hk, List.map_cons, List.mem_cons, ← ih]
      simp [hk]

/-- Reading after a run of conditional writes that all write the same text at `k`. -/
theorem lookup_foldl_Set {α : Type} (xs : List α) (P : α → Bool) (kf : α → String)
    (vf : α → PlainText) (acc : Properties) (k : String) (w : PlainText)
    (hw : ∀ x ∈ xs, P x = true → kf x = k → vf x = w) :
    (xs.foldl (fun pp x => if P x then pp.Set (kf x) (vf x) else pp) acc).lookup k =
      if ∃ x ∈ xs, P x = true ∧ kf x ≠ "" ∧ kf x = k then some w else acc.lookup k := by
  induction xs generalizing acc with
  | nil => simp
  | cons x xs ih =>
    have hw' : ∀ y ∈ xs, P y = true → kf y = k → vf y = w :=
      fun y hy => hw y (List.mem_cons_of_mem _ hy)
    rw [List.foldl_cons, ih _ hw']
    by_cases hex : ∃ y ∈ xs, P y = true ∧ kf y ≠ "" ∧ kf y = k
    · have : ∃ y ∈ x :: xs, P y = true ∧ kf y ≠ "" ∧ kf y = k := by
        obtain ⟨y, hy, h⟩ := hex
        exact ⟨y, List.mem_cons_of_mem _ hy, h⟩
      rw [if_pos hex, if_pos this]
    · rw [if_neg hex]
      by_cases hx : P x = true ∧ kf x ≠ "" ∧ kf x = k
      · have : ∃ y ∈ x :: xs, P y = true ∧ kf y ≠ "" ∧ kf y = k :=
          ⟨x, List.mem_cons_self _ _, hx⟩
        rw [if_pos this, if_pos hx.1, Properties.lookup_Set, if_pos ⟨hx.2.1, hx.2.2.symm⟩,
          hw x (List.mem_cons_self _ _) hx.1 hx.2.2]
      · have : ¬ ∃ y ∈ x :: xs, P y = true ∧ kf y ≠ "" ∧ kf y = k := by
          rintro ⟨y, hy, h⟩
          rcases List.mem_cons.mp hy with rfl | hy
          · exact hx h
          · exact hex ⟨y, hy, h⟩
        rw [if_neg this]
        by_cases hP : P x = true
        · rw [if_pos hP, Properties.lookup_Set]
          have : ¬ (kf x ≠ "" ∧ k = kf x) := fun h => hx ⟨hP, h.1, h.2.symm⟩
          rw [if_neg this]
        · rw [if_neg hP]


theorem strip_iff (x pfx k : String) :
    ((decide (x.data.length > pfx.data.length) && hasPrefix x pfx) = true ∧
        String.mk (x.data.drop pfx.data.length) = k) ↔ (x = pfx ++ k ∧ k ≠ "") := by
  constructor
  · rintro ⟨hP, hk⟩
    rw [Bool.and_eq_true, decide_eq_true_eq] at hP
    obtain ⟨hlen, hpre⟩ := hP
    unfold hasPrefix at hpre
    rw [List.isPrefixOf_iff_prefix] at hpre
    obtain ⟨t, ht⟩ := hpre
    have hd : x.data.drop pfx.data.length = t := by
      rw [← ht, List.drop_left]
    rw [hd] at hk
    subst hk
    refine ⟨?_, ?_⟩
    · apply String.ext
      rw [String.data_append, ← ht]
    · intro h
      have ht0 : t = [] := by
        have := congrArg String.data h
        simpa using this
      subst ht0
      rw [← ht] at hlen
      simp at hlen
  · rintro ⟨hx, hk⟩
    subst hx
    have hk' : k.data ≠ [] := by
      intro h
      apply hk
      apply String.ext
      simpa using h
    refine ⟨?_, ?_⟩
    · rw [Bool.and_eq_true, decide_eq_true_eq]
      refine ⟨?_, ?_⟩
      · rw [String.data_append, List.length_append]
        have : 0 < k.data.length := List.length_pos.mpr hk'
        omega
      · unfold hasPrefix
        rw [List.isPrefixOf_iff_prefix, String.data_append]
        exact List.prefix_append _ _
    · rw [String.data_append, List.drop_left]

/-- What `FilterStripPrefix` keeps: under a stripped key the text the store
holds under the full key, and nothing under the empty key. -/
theorem Properties.lookup_FilterStripPrefix (p : Properties) (pfx k : String) :
    (p.FilterStripPrefix pfx).lookup k = if k = "" then none else p.lookup (pfx ++ k) := by
  unfold Properties.FilterStripPrefix
  have hw : ∀ x ∈ p.Keys,
      (decide (x.data.length > pfx.data.length) && hasPrefix x pfx) = true →
      String.mk (x.data.drop pfx.data.length) = k →
      (p.lookup x).getD emptyText = (p.lookup (pfx ++ k)).getD emptyText := by
    intro x _ hP hk
    rw [((strip_iff x pfx k).mp ⟨hP, hk⟩).1]
  rw [lookup_foldl_Set p.Keys
    (fun x => decide (x.data.length > pfx.data.length) && hasPrefix x pfx)
    (fun x => String.mk (x.data.drop pfx.data.length))
    (fun x => (p.lookup x).getD emptyText) NewProperties k _ hw]
  by_cases hk : k = ""
  · rw [if_pos hk, if_neg]
    · rfl
    · rintro ⟨x, _, _, h1, h2⟩
      exact h1 (h2.trans hk)
  · rw [if_neg hk]
    cases hl : p.lookup (pfx ++ k) with
    | none =>
      rw [if_neg]
      · rfl
      · rintro ⟨x, hx, hP, _, h2⟩
        have hxe := ((strip_iff x pfx k).mp ⟨hP, h2⟩).1
        rw [hxe, Properties.mem_Keys_iff, hl] at hx
        simp at hx
    | some v =>
      rw [if_pos]
      · rfl
      · refine ⟨pfx ++ k, ?_, ?_⟩
        · rw [Properties.mem_Keys_iff, hl]; rfl
        · have := (strip_iff (pfx ++ k) pfx k).mpr ⟨rfl, hk⟩
          exact ⟨this.1, by rw [this.2]; exact hk, this.2⟩


namespace DefaultClientConfig

theorem setPropertyInternal_lookup (c : DefaultClientConfig) (propName k : String) (value : Value) :
    (c.setPropertyInternal propName value).InternalProperties.lookup k =
      if propName ≠ "" ∧ k = propName then some (Sprintv value)
      else c.InternalProperties.lookup k := by
  simp only [setPropertyInternal, Properties.SetValue, Properties.lookup_Set]

theorem putDefaultIntegerProperty_External (c : DefaultClientConfig) (K : String) (d : Int) :
    (c.putDefaultIntegerProperty K d).ExternalProperties = c.ExternalProperties := rfl

theorem putDefaultBoolProperty_External (c : DefaultClientConfig) (K : String) (d : Bool) :
    (c.putDefaultBoolProperty K d).ExternalProperties = c.ExternalProperties := rfl

theorem putDefaultStringProperty_External (c : DefaultClientConfig) (K : String) (d : PlainText) :
    (c.putDefaultStringProperty K d).ExternalProperties = c.ExternalProperties := rfl

theorem putDefaultDurationProperty_External (c : DefaultClientConfig) (K : String) (d : Int) :
    (c.putDefaultDurationProperty K d).ExternalProperties = c.ExternalProperties := rfl

theorem putDefaultIntegerProperty_clientName (c : DefaultClientConfig) (K : String) (d : Int) :
    (c.putDefaultIntegerProperty K d).clientName = c.clientName := rfl

theorem putDefaultBoolProperty_clientName (c : DefaultClientConfig) (K : String) (d : Bool) :
    (c.putDefaultBoolProperty K d).clientName = c.clientName := rfl

theorem putDefaultStringProperty_clientName (c : DefaultClientConfig) (K : String) (d : PlainText) :
    (c.putDefaultStringProperty K d).clientName = c.clientName := rfl

theorem putDefaultDurationProperty_clientName (c : DefaultClientConfig) (K : String) (d : Int) :
    (c.putDefaultDurationProperty K d).clientName = c.clientName := rfl

theorem LoadDefaultValues_External (c : DefaultClientConfig) :
    c.LoadDefaultValues.ExternalProperties = c.ExternalProperties := by
  simp only [LoadDefaultValues, putDefaultIntegerProperty_External,
    putDefaultBoolProperty_External, putDefaultStringProperty_External,
    putDefaultDurationProperty_External]

theorem LoadDefaultValues_clientName (c : DefaultClientConfig) :
    c.LoadDefaultValues.clientName = c.clientName := by
  simp only [LoadDefaultValues, putDefaultIntegerProperty_clientName,
    putDefaultBoolProperty_clientName, putDefaultStringProperty_clientName,
    putDefaultDurationProperty_clientName]

theorem foldl_setPropertyInternal (ks : List String) (vf : String → PlainText)
    (c : DefaultClientConfig) :
    ks.foldl (fun c key => c.setPropertyInternal key (.string (vf key))) c =
      { c with InternalProperties :=
          ks.foldl (fun pp key => pp.Set key (vf key)) c.InternalProperties } := by
  induction ks generalizing c with
  | nil => rfl
  | cons k ks ih =>
    rw [List.foldl_cons, ih]
    rfl

/-- What the internal layer holds after `LoadProperties`: under a non-empty key
the text the external layer holds under the key with the client name in front,
and otherwise what `LoadDefaultValues` has put there. -/
theorem LoadProperties_lookup (c : DefaultClientConfig) (clientName k : String) :
    (c.LoadProperties clientName).InternalProperties.lookup k =
      if k = "" then (c.SetClientName clientName).LoadDefaultValues.InternalProperties.lookup k
      else
        match c.ExternalProperties.lookup (clientName ++ "." ++ k) with
        | some v => some v
        | none => (c.SetClientName clientName).LoadDefaultValues.InternalProperties.lookup k := by
  unfold LoadProperties
  simp only []
  rw [LoadDefaultValues_External]
  have hE : (c.SetClientName clientName).ExternalProperties = c.ExternalProperties := rfl
  rw [hE]
  generalize (c.SetClientName clientName).LoadDefaultValues = base
  generalize hpp : c.ExternalProperties.FilterStripPrefix (clientName ++ ".") = pp
  have hfold := foldl_setPropertyInternal pp.Keys
    (fun key => ⟨pp.GetString key "", hasRef_GetString pp key emptyText⟩) base
  rw [hfold]
  simp only []
  have hfun : (fun (acc : Properties) (key : String) =>
        acc.Set key ⟨pp.GetString key "", hasRef_GetString pp key emptyText⟩) =
      (fun acc key => if (fun _ => true) key = true then
        acc.Set (id key) ((pp.lookup key).getD emptyText) else acc) := by
    funext acc key
    have : (⟨pp.GetString key "", hasRef_GetString pp key emptyText⟩ : PlainText) =
        (pp.lookup key).getD emptyText := by
      apply Subtype.ext
      simp only [Properties.GetString, Properties.Get]
      cases pp.lookup key <;> rfl
    simp [this]
  rw [hfun, lookup_foldl_Set pp.Keys (fun _ => true) id
    (fun key => (pp.lookup key).getD emptyText) base.InternalProperties k
    ((pp.lookup k).getD emptyText) (by intro x _ _ hx; simp only [id] at hx; rw [hx])]
  have hppk : pp.lookup k = if k = "" then none else c.ExternalProperties.lookup (clientName ++ "." ++ k) := by
    rw [← hpp, Properties.lookup_FilterStripPrefix]
  by_cases hk : k = ""
  · rw [if_pos hk, if_neg]
    rintro ⟨x, _, _, h1, h2⟩
    exact h1 (h2.trans hk)
  · rw [if_neg hk] at hppk ⊢
    rw [← hppk]
    cases hl : pp.lookup k with
    | none =>
      rw [if_neg]
      rintro ⟨x, hx, _, _, h2⟩
      simp only [id] at h2
      rw [h2, Properties.mem_Keys_iff, hl] at hx
      simp at hx
    | some v =>
      rw [if_pos]
      · rfl
      · exact ⟨k, by rw [Properties.mem_Keys_iff, hl]; rfl, rfl, hk, rfl⟩

end DefaultClientConfig

/-! ## Theorems -/

open LoadBalancerHTTPClient DefaultClientConfig

/-- C1: when the underlying client hands `ExecuteHTTP` a response and no error,
`ExecuteHTTP` returns a nil response with a client error of class
`ServerThrottled` exactly when the status code is 502, 503 or 504; for every
other status code it returns that response wrapped as an `HTTPResponse`, with a
nil error. -/
theorem ExecuteHTTP_throttled_iff (c : LoadBalancerHTTPClient) (convertError : GoError → GoError)
    (clientDo : Option http.Request → TransportResult) (request : HTTPRequest)
    (response : http.Response) (h : clientDo request.GetRawRequest = .ok response) :
    (((c.ExecuteHTTP convertError clientDo request).resp = none ∧
        ∃ e, (c.ExecuteHTTP convertError clientDo request).err = some e ∧
          e.errorType? = some ErrorType.ServerThrottled) ↔
      (response.StatusCode = 502 ∨ response.StatusCode = 503 ∨ response.StatusCode = 504)) ∧
    (¬(response.StatusCode = 502 ∨ response.StatusCode = 503 ∨ response.StatusCode = 504) →
      (c.ExecuteHTTP convertError clientDo request).resp = some (NewHTTPResponse response) ∧
      (c.ExecuteHTTP convertError clientDo request).err = none) := by
  by_cases hs : response.StatusCode = 502 ∨ response.StatusCode = 503 ∨ response.StatusCode = 504
  · have hb : (decide (response.StatusCode = http.StatusBadGateway) ||
        decide (response.StatusCode = http.StatusServiceUnavailable) ||
        decide (response.StatusCode = http.StatusGatewayTimeout)) = true := by
      simpa [http.StatusBadGateway, http.StatusServiceUnavailable, http.StatusGatewayTimeout,
        or_assoc] using hs
    refine ⟨⟨fun _ => hs, fun _ => ?_⟩, fun hn => absurd hs hn⟩
    simp [ExecuteHTTP, h, hb, NewClientError, GoError.errorType?]
  · have hb : (decide (response.StatusCode = http.StatusBadGateway) ||
        decide (response.StatusCode = http.StatusServiceUnavailable) ||
        decide (response.StatusCode = http.StatusGatewayTimeout)) = false := by
      simpa [http.StatusBadGateway, http.StatusServiceUnavailable, http.StatusGatewayTimeout,
        and_assoc] using hs
    have hr : (c.ExecuteHTTP convertError clientDo request).resp = some (NewHTTPResponse response) ∧
        (c.ExecuteHTTP convertError clientDo request).err = none := by
      simp [ExecuteHTTP, h, hb]
    refine ⟨⟨fun hx => ?_, fun hx => absurd hx hs⟩, fun _ => hr⟩
    rw [hr.1] at hx
    exact absurd hx.1 (by simp)

/-- Witness for C1: with a transport that answers 503, `ExecuteHTTP` returns no
response and a client error of class `ServerThrottled`. -/
theorem ExecuteHTTP_throttled_iff_witness :
    (LoadBalancerHTTPClient.ExecuteHTTP (NewHTTPLoadBalancerClient (NewDefaultClientConfig "svc" none))
        id (fun _ => TransportResult.ok ⟨503, "busy"⟩) ⟨some ⟨"GET", "svc", "/", ""⟩⟩).resp = none ∧
      ∃ e, (LoadBalancerHTTPClient.ExecuteHTTP
          (NewHTTPLoadBalancerClient (NewDefaultClientConfig "svc" none))
          id (fun _ => TransportResult.ok ⟨503, "busy"⟩) ⟨some ⟨"GET", "svc", "/", ""⟩⟩).err = some e ∧
        e.errorType? = some ErrorType.ServerThrottled :=
  (ExecuteHTTP_throttled_iff (NewHTTPLoadBalancerClient (NewDefaultClientConfig "svc" none)) id
    (fun _ => TransportResult.ok ⟨503, "busy"⟩) ⟨some ⟨"GET", "svc", "/", ""⟩⟩ ⟨503, "busy"⟩ rfl).1.2
    (Or.inr (Or.inl rfl))

/-- C2: for every client name, every external layer and every external key
`clientName + "." + k` with `k` non-empty and text `v` (free of references, as
every text of the embedded store is), after `LoadProperties(clientName)`, and so
after `NewDefaultClientConfig(clientName, props)`, the internal layer maps `k`
to `v` and `GetPropertyAsString(k, d)` returns `v` for every `d`; nothing is
assumed on `k` being an option key or on the external layer holding the bare
key `k`. -/
theorem LoadProperties_prefixed_key (c : DefaultClientConfig) (clientName k : String)
    (v : PlainText) (d : String) (hk : k ≠ "")
    (hv : c.ExternalProperties.lookup (clientName ++ "." ++ k) = some v) :
    ((c.LoadProperties clientName).InternalProperties.lookup k = some v ∧
      (c.LoadProperties clientName).GetPropertyAsString k d = v.val) ∧
    ((NewDefaultClientConfig clientName (some c.ExternalProperties)).InternalProperties.lookup k =
        some v ∧
      (NewDefaultClientConfig clientName (some c.ExternalProperties)).GetPropertyAsString k d =
        v.val) := by
  have key : ∀ c' : DefaultClientConfig, c'.ExternalProperties = c.ExternalProperties →
      (c'.LoadProperties clientName).InternalProperties.lookup k = some v ∧
      (c'.LoadProperties clientName).GetPropertyAsString k d = v.val := by
    intro c' hc'
    have h1 : (c'.LoadProperties clientName).InternalProperties.lookup k = some v := by
      rw [LoadProperties_lookup, if_neg hk, hc', hv]
    refine ⟨h1, ?_⟩
    simp only [GetPropertyAsString, Properties.GetString, Properties.Get, h1]
  exact ⟨key c rfl, key _ rfl⟩

/-- An external layer that holds the option key `port` both bare and under the
client name `svc`. -/
def portTwice : Properties :=
  ⟨[("port", ⟨"8080", by decide⟩), ("svc.port", ⟨"9090", by decide⟩)]⟩

/-- Witness for C2: with `port` both bare and under `svc.`, the internal layer
of the `svc` configuration reads `9090` at `port`. -/
theorem LoadProperties_prefixed_key_witness :
    (NewDefaultClientConfig "svc" (some portTwice)).GetPropertyAsString "port" "none" = "9090" :=
  (LoadProperties_prefixed_key ⟨NewProperties, portTwice, ""⟩ "svc" "port" ⟨"9090", by decide⟩
    "none" (by decide) (by decide)).2.2

/-- The 29 option keys, in the order `LoadDefaultValues` installs them. -/
def optionKeys : List String :=
  [EnableConnectionPool, MaxConnectionsPerHost, MaxTotalConnections, ConnectTimeout,
    ReadWriteTimeout, MaxAutoRetries, MaxAutoRetriesNextServer, OKToRetryOnAllOperations, Port,
    ListOfServers, ConnectionFailureThreshold, CircuitTrippedTimeoutFactor, CircuitTripMaxTimeout,
    PingInterval, PingStrategy, LoadBalancerRule, LoadBalancerKey, RequestTimeout,
    ListOfServersPollingInterval, ConcurrencyRateLimitSwitch, TokenBucketRateLimitSwitch,
    TokenBucketCapacity, TokenBucketFillInterval, TokenBucketFillCount,
    LeakyBucketRateLimitSwitch, LeakyBucketCapacity, LeakyBucketInterval,
    RequestCountsSlidingWindowSize, ResponseTimeWindowSize]

/-- Two configurations with the same internal layer whose external layers hold
the same text under every bare option key. -/
def SameDefaultsInput (c₁ c₂ : DefaultClientConfig) : Prop :=
  c₁.InternalProperties = c₂.InternalProperties ∧
    ∀ K ∈ optionKeys, c₁.ExternalProperties.lookup K = c₂.ExternalProperties.lookup K

theorem SameDefaultsInput_putInteger {c₁ c₂ : DefaultClientConfig} (K : String) (d : Int)
    (hK : K ∈ optionKeys) (h : SameDefaultsInput c₁ c₂) :
    SameDefaultsInput (c₁.putDefaultIntegerProperty K d) (c₂.putDefaultIntegerProperty K d) := by
  refine ⟨?_, h.2⟩
  simp only [putDefaultIntegerProperty, setPropertyInternal, Properties.GetInt, Properties.Get,
    h.1, h.2 K hK]

theorem SameDefaultsInput_putBool {c₁ c₂ : DefaultClientConfig} (K : String) (d : Bool)
    (hK : K ∈ optionKeys) (h : SameDefaultsInput c₁ c₂) :
    SameDefaultsInput (c₁.putDefaultBoolProperty K d) (c₂.putDefaultBoolProperty K d) := by
  refine ⟨?_, h.2⟩
  simp only [putDefaultBoolProperty, setPropertyInternal, Properties.GetBool, Properties.Get,
    h.1, h.2 K hK]

theorem SameDefaultsInput_putString {c₁ c₂ : DefaultClientConfig} (K : String) (d : PlainText)
    (hK : K ∈ optionKeys) (h : SameDefaultsInput c₁ c₂) :
    SameDefaultsInput (c₁.putDefaultStringProperty K d) (c₂.putDefaultStringProperty K d) := by
  refine ⟨?_, h.2⟩
  simp only [putDefaultStringProperty, setPropertyInternal, Properties.GetString, Properties.Get,
    h.1, h.2 K hK]

theorem SameDefaultsInput_putDuration {c₁ c₂ : DefaultClientConfig} (K : String) (d : Int)
    (hK : K ∈ optionKeys) (h : SameDefaultsInput c₁ c₂) :
    SameDefaultsInput (c₁.putDefaultDurationProperty K d) (c₂.putDefaultDurationProperty K d) := by
  refine ⟨?_, h.2⟩
  simp only [putDefaultDurationProperty, setPropertyInternal, Properties.GetParsedDuration,
    Properties.Get, h.1, h.2 K hK]

theorem SameDefaultsInput_LoadDefaultValues {c₁ c₂ : DefaultClientConfig}
    (h : SameDefaultsInput c₁ c₂) :
    SameDefaultsInput c₁.LoadDefaultValues c₂.LoadDefaultValues := by
  have h1 := SameDefaultsInput_putBool EnableConnectionPool DefaultEnableConnectionPool (by simp [optionKeys]) h
  have h2 := SameDefaultsInput_putInteger MaxConnectionsPerHost DefaultMaxConnectionsPerHost (by simp [optionKeys]) h1
  have h3 := SameDefaultsInput_putInteger MaxTotalConnections DefaultMaxTotalConnections (by simp [optionKeys]) h2
  have h4 := SameDefaultsInput_putDuration ConnectTimeout DefaultConnectTimeout (by simp [optionKeys]) h3
  have h5 := SameDefaultsInput_putDuration ReadWriteTimeout DefaultReadWriteTimeout (by simp [optionKeys]) h4
  have h6 := SameDefaultsInput_putInteger MaxAutoRetries DefaultMaxAutoRetries (by simp [optionKeys]) h5
  have h7 := SameDefaultsInput_putInteger MaxAutoRetriesNextServer DefaultMaxAutoRetriesNextServer (by simp [optionKeys]) h6
  have h8 := SameDefaultsInput_putBool OKToRetryOnAllOperations DefaultOKToRetryOnAllOperations (by simp [optionKeys]) h7
  have h9 := SameDefaultsInput_putInteger Port DefaultPort (by simp [optionKeys]) h8
  have h10 := SameDefaultsInput_putString ListOfServers DefaultListOfServers (by simp [optionKeys]) h9
  have h11 := SameDefaultsInput_putInteger ConnectionFailureThreshold DefaultConnectionFailureThreshold (by simp [optionKeys]) h10
  have h12 := SameDefaultsInput_putInteger CircuitTrippedTimeoutFactor DefaultCircuitTrippedTimeoutFactor (by simp [optionKeys]) h11
  have h13 := SameDefaultsInput_putDuration CircuitTripMaxTimeout DefaultCircuitTripMaxTimeout (by simp [optionKeys]) h12
  have h14 := SameDefaultsInput_putDuration PingInterval DefaultPingInterval (by simp [optionKeys]) h13
  have h15 := SameDefaultsInput_putString PingStrategy DefaultPingStrategy (by simp [optionKeys]) h14
  have h16 := SameDefaultsInput_putString LoadBalancerRule DefaultLoadBalancerRule (by simp [optionKeys]) h15
  have h17 := SameDefaultsInput_putString LoadBalancerKey DefaultLoadBalancerKey (by simp [optionKeys]) h16
  have h18 := SameDefaultsInput_putDuration RequestTimeout DefaultRequestTimeout (by simp [optionKeys]) h17
  have h19 := SameDefaultsInput_putDuration ListOfServersPollingInterval DefaultListOfServersPollingInterval (by simp [optionKeys]) h18
  have h20 := SameDefaultsInput_putBool ConcurrencyRateLimitSwitch DefaultConcurrencyRateLimitSwitch (by simp [optionKeys]) h19
  have h21 := SameDefaultsInput_putBool TokenBucketRateLimitSwitch DefaultTokenBucketRateLimitSwitch (by simp [optionKeys]) h20
  have h22 := SameDefaultsInput_putInteger TokenBucketCapacity DefaultTokenBucketCapacity (by simp [optionKeys]) h21
  have h23 := SameDefaultsInput_putDuration TokenBucketFillInterval DefaultTokenBucketFillInterval (by simp [optionKeys]) h22
  have h24 := SameDefaultsInput_putInteger TokenBucketFillCount DefaultTokenBucketFillCount (by simp [optionKeys]) h23
  have h25 := SameDefaultsInput_putBool LeakyBucketRateLimitSwitch DefaultLeakyBucketRateLimitSwitch (by simp [optionKeys]) h24
  have h26 := SameDefaultsInput_putInteger LeakyBucketCapacity DefaultLeakyBucketCapacity (by simp [optionKeys]) h25
  have h27 := SameDefaultsInput_putDuration LeakyBucketInterval DefaultLeakyBucketInterval (by simp [optionKeys]) h26
  have h28 := SameDefaultsInput_putInteger RequestCountsSlidingWindowSize DefaultRequestCountsSlidingWindowSize (by simp [optionKeys]) h27
  have h29 := SameDefaultsInput_putInteger ResponseTimeWindowSize DefaultResponseTimeWindowSize (by simp [optionKeys]) h28
  exact h29

theorem prefixed_ne_of_data {pfx k key : String} (h : ¬ pfx.data <+: key.data) :
    pfx ++ k ≠ key := by
  intro e
  apply h
  rw [← e, String.data_append]
  exact List.prefix_append _ _

/-- C3, as amended, for external layers whose texts hold no `${` reference: for
every client name and every two configurations with the same internal layer
whose external layers hold the same keys and texts under the client name and
the same text under each of the 29 bare option keys, `LoadProperties` leaves the
same text under every key of the internal layer, so every typed getter reads
the same value; external keys that neither carry the client name nor are a bare
option key have no influence. -/
theorem LoadProperties_scoped (c₁ c₂ : DefaultClientConfig) (clientName : String)
    (hint : c₁.InternalProperties = c₂.InternalProperties)
    (hpre : ∀ k, c₁.ExternalProperties.lookup (clientName ++ "." ++ k) =
      c₂.ExternalProperties.lookup (clientName ++ "." ++ k))
    (hbare : ∀ K ∈ optionKeys, c₁.ExternalProperties.lookup K = c₂.ExternalProperties.lookup K)
    (k : String) :
    (c₁.LoadProperties clientName).InternalProperties.lookup k =
        (c₂.LoadProperties clientName).InternalProperties.lookup k ∧
      (∀ d, (c₁.LoadProperties clientName).GetPropertyAsInteger k d =
        (c₂.LoadProperties clientName).GetPropertyAsInteger k d) ∧
      (∀ d, (c₁.LoadProperties clientName).GetPropertyAsString k d =
        (c₂.LoadProperties clientName).GetPropertyAsString k d) ∧
      (∀ d, (c₁.LoadProperties clientName).GetPropertyAsBool k d =
        (c₂.LoadProperties clientName).GetPropertyAsBool k d) ∧
      (∀ d, (c₁.LoadProperties clientName).GetPropertyAsDuration k d =
        (c₂.LoadProperties clientName).GetPropertyAsDuration k d) := by
  have hin : SameDefaultsInput (c₁.SetClientName clientName) (c₂.SetClientName clientName) :=
    ⟨hint, hbare⟩
  have hbase := (SameDefaultsInput_LoadDefaultValues hin).1
  have hl : (c₁.LoadProperties clientName).InternalProperties.lookup k =
      (c₂.LoadProperties clientName).InternalProperties.lookup k := by
    rw [LoadProperties_lookup, LoadProperties_lookup, hbase, hpre]
  refine ⟨hl, ?_, ?_, ?_, ?_⟩ <;> intro d
  · simp only [GetPropertyAsInteger, Properties.GetInt, Properties.Get, hl]
  · simp only [GetPropertyAsString, Properties.GetString, Properties.Get, hl]
  · simp only [GetPropertyAsBool, Properties.GetBool, Properties.Get, hl]
  · simp only [GetPropertyAsDuration, Properties.GetParsedDuration, Properties.Get, hl]

/-- An external layer with a key that is neither under `svc.` nor an option key. -/
def withColor : Properties :=
  ⟨[("color", ⟨"red", by decide⟩), ("svc.port", ⟨"9090", by decide⟩)]⟩

/-- The same external layer without that key. -/
def withoutColor : Properties := ⟨[("svc.port", ⟨"9090", by decide⟩)]⟩

/-- Witness for C3 as amended: the key `color` does not change what the `svc`
configuration reads at `port`. -/
theorem LoadProperties_scoped_witness :
    (NewDefaultClientConfig "svc" (some withColor)).GetPropertyAsInteger "port" 0 =
      (NewDefaultClientConfig "svc" (some withoutColor)).GetPropertyAsInteger "port" 0 :=
  (LoadProperties_scoped ⟨NewProperties, withColor, ""⟩ ⟨NewProperties, withoutColor, ""⟩ "svc" rfl
    (fun k => lookup_cons_ne _ _ (prefixed_ne_of_data (by decide)))
    (by decide) "port").2.1 0

/-- An external layer that holds the option key `port` bare, next to a key under
`svc.`. -/
def withBarePort : Properties :=
  ⟨[("port", ⟨"8080", by decide⟩), ("svc.maxAutoRetries", ⟨"3", by decide⟩)]⟩

/-- The same external layer without the bare key. -/
def withoutBarePort : Properties := ⟨[("svc.maxAutoRetries", ⟨"3", by decide⟩)]⟩

/-- Counterexample to C3 as stated: two external layers with the same keys and
texts under `svc.`, one of which also holds the bare key `port`; the `svc`
configurations read 8080 and 80 at `port`. -/
theorem LoadProperties_scoped_counterexample :
    (∀ k, withBarePort.lookup ("svc" ++ "." ++ k) = withoutBarePort.lookup ("svc" ++ "." ++ k)) ∧
      (NewDefaultClientConfig "svc" (some withBarePort)).GetPropertyAsInteger Port 0 = 8080 ∧
      (NewDefaultClientConfig "svc" (some withoutBarePort)).GetPropertyAsInteger Port 0 = 80 :=
  ⟨fun _ => lookup_cons_ne _ _ (prefixed_ne_of_data (by decide)), by decide, by decide⟩

/-- An external layer that sets three options of `svc` to texts of the wrong kind. -/
def wrongKinds : Properties :=
  ⟨[("svc.port", ⟨"eighty", by decide⟩), ("svc.connectTimeout", ⟨"2", by decide⟩),
    ("svc.enableConnectionPool", ⟨"maybe", by decide⟩)]⟩

/-- Counterexample to C4 as stated: the internal layer holds `maybe`, which is no
boolean literal, under `enableConnectionPool`, and `GetPropertyAsBool` called
with the default `true` returns `false`. -/
theorem GetPropertyAsBool_counterexample :
    (NewDefaultClientConfig "svc" (some wrongKinds)).InternalProperties.lookup EnableConnectionPool =
        some ⟨"maybe", by decide⟩ ∧
      (NewDefaultClientConfig "svc" (some wrongKinds)).GetPropertyAsBool EnableConnectionPool true =
        false := by
  decide

/-- One call of `LoadDefaultValues`: the `putDefault…Property` of the kind of the
default, for one row of the option table (no row has a default of another kind). -/
def putDefault (c : DefaultClientConfig) (row : String × Value) : DefaultClientConfig :=
  match row.2 with
  | .int d => c.putDefaultIntegerProperty row.1 d
  | .bool d => c.putDefaultBoolProperty row.1 d
  | .string d => c.putDefaultStringProperty row.1 d
  | .duration d => c.putDefaultDurationProperty row.1 d
  | .other rendered => c.setPropertyInternal row.1 (.other rendered)

/-- The rows `LoadDefaultValues` installs, in source order: key and default. -/
def optionTable : List (String × Value) :=
  [(EnableConnectionPool, .bool DefaultEnableConnectionPool),
    (MaxConnectionsPerHost, .int DefaultMaxConnectionsPerHost),
    (MaxTotalConnections, .int DefaultMaxTotalConnections),
    (ConnectTimeout, .duration DefaultConnectTimeout),
    (ReadWriteTimeout, .duration DefaultReadWriteTimeout),
    (MaxAutoRetries, .int DefaultMaxAutoRetries),
    (MaxAutoRetriesNextServer, .int DefaultMaxAutoRetriesNextServer),
    (OKToRetryOnAllOperations, .bool DefaultOKToRetryOnAllOperations),
    (Port, .int DefaultPort),
    (ListOfServers, .string DefaultListOfServers),
    (ConnectionFailureThreshold, .int DefaultConnectionFailureThreshold),
    (CircuitTrippedTimeoutFactor, .int DefaultCircuitTrippedTimeoutFactor),
    (CircuitTripMaxTimeout, .duration DefaultCircuitTripMaxTimeout),
    (PingInterval, .duration DefaultPingInterval),
    (PingStrategy, .string DefaultPingStrategy),
    (LoadBalancerRule, .string DefaultLoadBalancerRule),
    (LoadBalancerKey, .string DefaultLoadBalancerKey),
    (RequestTimeout, .duration DefaultRequestTimeout),
    (ListOfServersPollingInterval, .duration DefaultListOfServersPollingInterval),
    (ConcurrencyRateLimitSwitch, .bool DefaultConcurrencyRateLimitSwitch),
    (TokenBucketRateLimitSwitch, .bool DefaultTokenBucketRateLimitSwitch),
    (TokenBucketCapacity, .int DefaultTokenBucketCapacity),
    (TokenBucketFillInterval, .duration DefaultTokenBucketFillInterval),
    (TokenBucketFillCount, .int DefaultTokenBucketFillCount),
    (LeakyBucketRateLimitSwitch, .bool DefaultLeakyBucketRateLimitSwitch),
    (LeakyBucketCapacity, .int DefaultLeakyBucketCapacity),
    (LeakyBucketInterval, .duration DefaultLeakyBucketInterval),
    (RequestCountsSlidingWindowSize, .int DefaultRequestCountsSlidingWindowSize),
    (ResponseTimeWindowSize, .int DefaultResponseTimeWindowSize)]

theorem LoadDefaultValues_eq_foldl (c : DefaultClientConfig) :
    c.LoadDefaultValues = optionTable.foldl putDefault c := rfl

theorem optionKeys_eq : optionKeys = optionTable.map Prod.fst := rfl

theorem putDefault_External (c : DefaultClientConfig) (row : String × Value) :
    (putDefault c row).ExternalProperties = c.ExternalProperties := by
  obtain ⟨K, dv⟩ := row
  cases dv <;> rfl

theorem putDefault_lookup_ne (c : DefaultClientConfig) (row : String × Value) (k : String)
    (h : k ≠ row.1) :
    (putDefault c row).InternalProperties.lookup k = c.InternalProperties.lookup k := by
  obtain ⟨K, dv⟩ := row
  have hn : ¬ (K ≠ "" ∧ k = K) := fun hh => h hh.2
  cases dv <;>
    simp only [putDefault, putDefaultIntegerProperty, putDefaultBoolProperty,
      putDefaultStringProperty, putDefaultDurationProperty, setPropertyInternal_lookup, if_neg hn]

theorem putDefault_lookup_self (c : DefaultClientConfig) (K : String) (dv : Value)
    (hK : K ≠ "") (hext : c.ExternalProperties.lookup K = none) :
    (putDefault c (K, dv)).InternalProperties.lookup K = some (Sprintv dv) := by
  have hp : K ≠ "" ∧ True := ⟨hK, trivial⟩
  cases dv with
  | int d =>
    simp only [putDefault, putDefaultIntegerProperty, setPropertyInternal_lookup,
      Properties.GetInt, Properties.Get, hext]
    rw [if_pos hp]
  | bool d =>
    simp only [putDefault, putDefaultBoolProperty, setPropertyInternal_lookup,
      Properties.GetBool, Properties.Get, hext]
    rw [if_pos hp]
  | string d =>
    simp only [putDefault, putDefaultStringProperty, setPropertyInternal_lookup,
      Properties.GetString, Properties.Get, hext]
    rw [if_pos hp]
  | duration d =>
    simp only [putDefault, putDefaultDurationProperty, setPropertyInternal_lookup,
      Properties.GetParsedDuration, Properties.Get, hext]
    rw [if_pos hp]
  | other rendered =>
    simp only [putDefault, setPropertyInternal_lookup]
    rw [if_pos hp]

theorem foldl_putDefault_External (rows : List (String × Value)) (c : DefaultClientConfig) :
    (rows.foldl putDefault c).ExternalProperties = c.ExternalProperties := by
  induction rows generalizing c with
  | nil => rfl
  | cons row rows ih => rw [List.foldl_cons, ih, putDefault_External]

theorem foldl_putDefault_lookup_not_mem (rows : List (String × Value)) (c : DefaultClientConfig)
    (k : String) (h : k ∉ rows.map Prod.fst) :
    (rows.foldl putDefault c).InternalProperties.lookup k = c.InternalProperties.lookup k := by
  induction rows generalizing c with
  | nil => rfl
  | cons row rows ih =>
    rw [List.map_cons, List.mem_cons, not_or] at h
    rw [List.foldl_cons, ih _ h.2, putDefault_lookup_ne _ _ _ h.1]

/-- A row whose key the external layer does not hold leaves the text of its
default in the internal layer, when no two rows share a key. -/
theorem foldl_putDefault_lookup (rows : List (String × Value)) (c : DefaultClientConfig)
    (K : String) (dv : Value) (hnodup : (rows.map Prod.fst).Nodup) (hmem : (K, dv) ∈ rows)
    (hK : K ≠ "") (hext : c.ExternalProperties.lookup K = none) :
    (rows.foldl putDefault c).InternalProperties.lookup K = some (Sprintv dv) := by
  induction rows generalizing c with
  | nil => exact absurd hmem (List.not_mem_nil _)
  | cons row rows ih =>
    rw [List.map_cons, List.nodup_cons] at hnodup
    rw [List.foldl_cons]
    rcases List.mem_cons.mp hmem with hrow | hrow
    · subst hrow
      rw [foldl_putDefault_lookup_not_mem _ _ _ hnodup.1, putDefault_lookup_self _ _ _ hK hext]
    · exact ih _ hnodup.2 hrow (by rw [putDefault_External]; exact hext)

theorem optionTable_nodup : (optionTable.map Prod.fst).Nodup := by decide

/-- After `LoadProperties`, an option key that the external layer holds neither
bare nor under the client name reads the text of its default. -/
theorem LoadProperties_lookup_default (c : DefaultClientConfig) (clientName K : String)
    (dv : Value) (hmem : (K, dv) ∈ optionTable)
    (hbare : c.ExternalProperties.lookup K = none)
    (hpre : c.ExternalProperties.lookup (clientName ++ "." ++ K) = none) :
    (c.LoadProperties clientName).InternalProperties.lookup K = some (Sprintv dv) := by
  have hK : K ≠ "" := by
    intro h
    have hin : K ∈ optionTable.map Prod.fst := List.mem_map_of_mem Prod.fst hmem
    rw [h] at hin
    exact absurd hin (by decide)
  rw [LoadProperties_lookup, if_neg hK, hpre, LoadDefaultValues_eq_foldl]
  exact foldl_putDefault_lookup _ _ _ _ optionTable_nodup hmem hK hbare

theorem read_integer_default (c : DefaultClientConfig) (K : String) (d x : Int)
    (hl : c.InternalProperties.lookup K = some (Sprintv (.int d)))
    (hp : ParseInt (Sprintv (.int d)).val = some d) : c.GetPropertyAsInteger K x = d := by
  simp only [GetPropertyAsInteger, Properties.GetInt, Properties.Get, hl, hp]

theorem read_duration_default (c : DefaultClientConfig) (K : String) (d x : Int)
    (hl : c.InternalProperties.lookup K = some (Sprintv (.duration d)))
    (hp : ParseDuration (Sprintv (.duration d)).val = some d) :
    c.GetPropertyAsDuration K x = d := by
  simp only [GetPropertyAsDuration, Properties.GetParsedDuration, Properties.Get, hl, hp]

theorem read_bool_default (c : DefaultClientConfig) (K : String) (d x : Bool)
    (hl : c.InternalProperties.lookup K = some (Sprintv (.bool d)))
    (hp : boolVal (Sprintv (.bool d)).val = d) : c.GetPropertyAsBool K x = d := by
  simp only [GetPropertyAsBool, Properties.GetBool, Properties.Get, hl, hp]

theorem read_string_default (c : DefaultClientConfig) (K : String) (d : PlainText) (x : String)
    (hl : c.InternalProperties.lookup K = some (Sprintv (.string d))) :
    c.GetPropertyAsString K x = d.val := by
  simp only [GetPropertyAsString, Properties.GetString, Properties.Get, hl, Sprintv]

/-- C5: when the external layer holds none of the 29 option keys, neither bare
nor under the client name, then after `LoadProperties` every option key reads
back the default of its table row through the getter of its type, whatever
default the caller supplies. -/
theorem LoadProperties_reads_table_defaults (c : DefaultClientConfig) (clientName : String)
    (h : ∀ K ∈ optionKeys, c.ExternalProperties.lookup K = none ∧
      c.ExternalProperties.lookup (clientName ++ "." ++ K) = none) :
    (∀ x, (c.LoadProperties clientName).GetPropertyAsBool EnableConnectionPool x = true) ∧
    (∀ x, (c.LoadProperties clientName).GetPropertyAsInteger MaxConnectionsPerHost x = 50) ∧
    (∀ x, (c.LoadProperties clientName).GetPropertyAsInteger MaxTotalConnections x = 200) ∧
    (∀ x, (c.LoadProperties clientName).GetPropertyAsDuration ConnectTimeout x = 2 * Second) ∧
    (∀ x, (c.LoadProperties clientName).GetPropertyAsDuration ReadWriteTimeout x = 5 * Second) ∧
    (∀ x, (c.LoadProperties clientName).GetPropertyAsDuration RequestTimeout x = 10 * Second) ∧
    (∀ x, (c.LoadProperties clientName).GetPropertyAsInteger MaxAutoRetries x = 0) ∧
    (∀ x, (c.LoadProperties clientName).GetPropertyAsInteger MaxAutoRetriesNextServer x = 1) ∧
    (∀ x, (c.LoadProperties clientName).GetPropertyAsBool OKToRetryOnAllOperations x = false) ∧
    (∀ x, (c.LoadProperties clientName).GetPropertyAsString ListOfServers x = "") ∧
    (∀ x, (c.LoadProperties clientName).GetPropertyAsDuration ListOfServersPollingInterval x = 30 * Second) ∧
    (∀ x, (c.LoadProperties clientName).GetPropertyAsInteger Port x = 80) ∧
    (∀ x, (c.LoadProperties clientName).GetPropertyAsInteger ConnectionFailureThreshold x = 3) ∧
    (∀ x, (c.LoadProperties clientName).GetPropertyAsInteger CircuitTrippedTimeoutFactor x = 10) ∧
    (∀ x, (c.LoadProperties clientName).GetPropertyAsDuration CircuitTripMaxTimeout x = 30 * Second) ∧
    (∀ x, (c.LoadProperties clientName).GetPropertyAsDuration PingInterval x = 10 * Second) ∧
    (∀ x, (c.LoadProperties clientName).GetPropertyAsString PingStrategy x = "serial") ∧
    (∀ x, (c.LoadProperties clientName).GetPropertyAsString LoadBalancerRule x = "RoundRobin") ∧
    (∀ x, (c.LoadProperties clientName).GetPropertyAsString LoadBalancerKey x = "") ∧
    (∀ x, (c.LoadProperties clientName).GetPropertyAsBool ConcurrencyRateLimitSwitch x = false) ∧
    (∀ x, (c.LoadProperties clientName).GetPropertyAsBool TokenBucketRateLimitSwitch x = false) ∧
    (∀ x, (c.LoadProperties clientName).GetPropertyAsInteger TokenBucketCapacity x = 100) ∧
    (∀ x, (c.LoadProperties clientName).GetPropertyAsDuration TokenBucketFillInterval x = 100 * Millisecond) ∧
    (∀ x, (c.LoadProperties clientName).GetPropertyAsInteger TokenBucketFillCount x = 10) ∧
    (∀ x, (c.LoadProperties clientName).GetPropertyAsBool LeakyBucketRateLimitSwitch x = false) ∧
    (∀ x, (c.LoadProperties clientName).GetPropertyAsInteger LeakyBucketCapacity x = 100) ∧
    (∀ x, (c.LoadProperties clientName).GetPropertyAsDuration LeakyBucketInterval x = 10 * Millisecond) ∧
    (∀ x, (c.LoadProperties clientName).GetPropertyAsInteger RequestCountsSlidingWindowSize x = 60) ∧
    (∀ x, (c.LoadProperties clientName).GetPropertyAsInteger ResponseTimeWindowSize x = 1000) :=
  ⟨fun x => read_bool_default _ EnableConnectionPool DefaultEnableConnectionPool x
      (LoadProperties_lookup_default c clientName EnableConnectionPool (.bool DefaultEnableConnectionPool) (by decide)
        (h EnableConnectionPool (by decide)).1 (h EnableConnectionPool (by decide)).2) (by decide),
    fun x => read_integer_default _ MaxConnectionsPerHost DefaultMaxConnectionsPerHost x
      (LoadProperties_lookup_default c clientName MaxConnectionsPerHost (.int DefaultMaxConnectionsPerHost) (by decide)
        (h MaxConnectionsPerHost (by decide)).1 (h MaxConnectionsPerHost (by decide)).2) (by decide),
    fun x => read_integer_default _ MaxTotalConnections DefaultMaxTotalConnections x
      (LoadProperties_lookup_default c clientName MaxTotalConnections (.int DefaultMaxTotalConnections) (by decide)
        (h MaxTotalConnections (by decide)).1 (h MaxTotalConnections (by decide)).2) (by decide),
    fun x => read_duration_default _ ConnectTimeout DefaultConnectTimeout x
      (LoadProperties_lookup_default c clientName ConnectTimeout (.duration DefaultConnectTimeout) (by decide)
        (h ConnectTimeout (by decide)).1 (h ConnectTimeout (by decide)).2) (by decide),
    fun x => read_duration_default _ ReadWriteTimeout DefaultReadWriteTimeout x
      (LoadProperties_lookup_default c clientName ReadWriteTimeout (.duration DefaultReadWriteTimeout) (by decide)
        (h ReadWriteTimeout (by decide)).1 (h ReadWriteTimeout (by decide)).2) (by decide),
    fun x => read_duration_default _ RequestTimeout DefaultRequestTimeout x
      (LoadProperties_lookup_default c clientName RequestTimeout (.duration DefaultRequestTimeout) (by decide)
        (h RequestTimeout (by decide)).1 (h RequestTimeout (by decide)).2) (by decide),
    fun x => read_integer_default _ MaxAutoRetries DefaultMaxAutoRetries x
      (LoadProperties_lookup_default c clientName MaxAutoRetries (.int DefaultMaxAutoRetries) (by decide)
        (h MaxAutoRetries (by decide)).1 (h MaxAutoRetries (by decide)).2) (by decide),
    fun x => read_integer_default _ MaxAutoRetriesNextServer DefaultMaxAutoRetriesNextServer x
      (LoadProperties_lookup_default c clientName MaxAutoRetriesNextServer (.int DefaultMaxAutoRetriesNextServer) (by decide)
        (h MaxAutoRetriesNextServer (by decide)).1 (h MaxAutoRetriesNextServer (by decide)).2) (by decide),
    fun x => read_bool_default _ OKToRetryOnAllOperations DefaultOKToRetryOnAllOperations x
      (LoadProperties_lookup_default c clientName OKToRetryOnAllOperations (.bool DefaultOKToRetryOnAllOperations) (by decide)
        (h OKToRetryOnAllOperations (by decide)).1 (h OKToRetryOnAllOperations (by decide)).2) (by decide),
    fun x => read_string_default _ ListOfServers DefaultListOfServers x
      (LoadProperties_lookup_default c clientName ListOfServers (.string DefaultListOfServers) (by decide)
        (h ListOfServers (by decide)).1 (h ListOfServers (by decide)).2),
    fun x => read_duration_default _ ListOfServersPollingInterval DefaultListOfServersPollingInterval x
      (LoadProperties_lookup_default c clientName ListOfServersPollingInterval (.duration DefaultListOfServersPollingInterval) (by decide)
        (h ListOfServersPollingInterval (by decide)).1 (h ListOfServersPollingInterval (by decide)).2) (by decide),
    fun x => read_integer_default _ Port DefaultPort x
      (LoadProperties_lookup_default c clientName Port (.int DefaultPort) (by decide)
        (h Port (by decide)).1 (h Port (by decide)).2) (by decide),
    fun x => read_integer_default _ ConnectionFailureThreshold DefaultConnectionFailureThreshold x
      (LoadProperties_lookup_default c clientName ConnectionFailureThreshold (.int DefaultConnectionFailureThreshold) (by decide)
        (h ConnectionFailureThreshold (by decide)).1 (h ConnectionFailureThreshold (by decide)).2) (by decide),
    fun x => read_integer_default _ CircuitTrippedTimeoutFactor DefaultCircuitTrippedTimeoutFactor x
      (LoadProperties_lookup_default c clientName CircuitTrippedTimeoutFactor (.int DefaultCircuitTrippedTimeoutFactor) (by decide)
        (h CircuitTrippedTimeoutFactor (by decide)).1 (h CircuitTrippedTimeoutFactor (by decide)).2) (by decide),
    fun x => read_duration_default _ CircuitTripMaxTimeout DefaultCircuitTripMaxTimeout x
      (LoadProperties_lookup_default c clientName CircuitTripMaxTimeout (.duration DefaultCircuitTripMaxTimeout) (by decide)
        (h CircuitTripMaxTimeout (by decide)).1 (h CircuitTripMaxTimeout (by decide)).2) (by decide),
    fun x => read_duration_default _ PingInterval DefaultPingInterval x
      (LoadProperties_lookup_default c clientName PingInterval (.duration DefaultPingInterval) (by decide)
        (h PingInterval (by decide)).1 (h PingInterval (by decide)).2) (by decide),
    fun x => read_string_default _ PingStrategy DefaultPingStrategy x
      (LoadProperties_lookup_default c clientName PingStrategy (.string DefaultPingStrategy) (by decide)
        (h PingStrategy (by decide)).1 (h PingStrategy (by decide)).2),
    fun x => read_string_default _ LoadBalancerRule DefaultLoadBalancerRule x
      (LoadProperties_lookup_default c clientName LoadBalancerRule (.string DefaultLoadBalancerRule) (by decide)
        (h LoadBalancerRule (by decide)).1 (h LoadBalancerRule (by decide)).2),
    fun x => read_string_default _ LoadBalancerKey DefaultLoadBalancerKey x
      (LoadProperties_lookup_default c clientName LoadBalancerKey (.string DefaultLoadBalancerKey) (by decide)
        (h LoadBalancerKey (by decide)).1 (h LoadBalancerKey (by decide)).2),
    fun x => read_bool_default _ ConcurrencyRateLimitSwitch DefaultConcurrencyRateLimitSwitch x
      (LoadProperties_lookup_default c clientName ConcurrencyRateLimitSwitch (.bool DefaultConcurrencyRateLimitSwitch) (by decide)
        (h ConcurrencyRateLimitSwitch (by decide)).1 (h ConcurrencyRateLimitSwitch (by decide)).2) (by decide),
    fun x => read_bool_default _ TokenBucketRateLimitSwitch DefaultTokenBucketRateLimitSwitch x
      (LoadProperties_lookup_default c clientName TokenBucketRateLimitSwitch (.bool DefaultTokenBucketRateLimitSwitch) (by decide)
        (h TokenBucketRateLimitSwitch (by decide)).1 (h TokenBucketRateLimitSwitch (by decide)).2) (by decide),
    fun x => read_integer_default _ TokenBucketCapacity DefaultTokenBucketCapacity x
      (LoadProperties_lookup_default c clientName TokenBucketCapacity (.int DefaultTokenBucketCapacity) (by decide)
        (h TokenBucketCapacity (by decide)).1 (h TokenBucketCapacity (by decide)).2) (by decide),
    fun x => read_duration_default _ TokenBucketFillInterval DefaultTokenBucketFillInterval x
      (LoadProperties_lookup_default c clientName TokenBucketFillInterval (.duration DefaultTokenBucketFillInterval) (by decide)
        (h TokenBucketFillInterval (by decide)).1 (h TokenBucketFillInterval (by decide)).2) (by decide),
    fun x => read_integer_default _ TokenBucketFillCount DefaultTokenBucketFillCount x
      (LoadProperties_lookup_default c clientName TokenBucketFillCount (.int DefaultTokenBucketFillCount) (by decide)
        (h TokenBucketFillCount (by decide)).1 (h TokenBucketFillCount (by decide)).2) (by decide),
    fun x => read_bool_default _ LeakyBucketRateLimitSwitch DefaultLeakyBucketRateLimitSwitch x
      (LoadProperties_lookup_default c clientName LeakyBucketRateLimitSwitch (.bool DefaultLeakyBucketRateLimitSwitch) (by decide)
        (h LeakyBucketRateLimitSwitch (by decide)).1 (h LeakyBucketRateLimitSwitch (by decide)).2) (by decide),
    fun x => read_integer_default _ LeakyBucketCapacity DefaultLeakyBucketCapacity x
      (LoadProperties_lookup_default c clientName LeakyBucketCapacity (.int DefaultLeakyBucketCapacity) (by decide)
        (h LeakyBucketCapacity (by decide)).1 (h LeakyBucketCapacity (by decide)).2) (by decide),
    fun x => read_duration_default _ LeakyBucketInterval DefaultLeakyBucketInterval x
      (LoadProperties_lookup_default c clientName LeakyBucketInterval (.duration DefaultLeakyBucketInterval) (by decide)
        (h LeakyBucketInterval (by decide)).1 (h LeakyBucketInterval (by decide)).2) (by decide),
    fun x => read_integer_default _ RequestCountsSlidingWindowSize DefaultRequestCountsSlidingWindowSize x
      (LoadProperties_lookup_default c clientName RequestCountsSlidingWindowSize (.int DefaultRequestCountsSlidingWindowSize) (by decide)
        (h RequestCountsSlidingWindowSize (by decide)).1 (h RequestCountsSlidingWindowSize (by decide)).2) (by decide),
    fun x => read_integer_default _ ResponseTimeWindowSize DefaultResponseTimeWindowSize x
      (LoadProperties_lookup_default c clientName ResponseTimeWindowSize (.int DefaultResponseTimeWindowSize) (by decide)
        (h ResponseTimeWindowSize (by decide)).1 (h ResponseTimeWindowSize (by decide)).2) (by decide)⟩

/-- An external layer without any option key. -/
def noOptionKey : Properties :=
  ⟨[("color", ⟨"red", by decide⟩), ("svc.flavour", ⟨"sweet", by decide⟩)]⟩

theorem noOptionKey_lookup (k : String) (h : k ≠ "color") (h' : k ≠ "svc.flavour") :
    noOptionKey.lookup k = none := by
  unfold noOptionKey Properties.lookup
  rw [lookup_cons_ne _ _ h, lookup_cons_ne _ _ h']
  rfl

/-- Witness for C5: without any option key in the external layer, the `svc`
configuration reads 1 at `maxAutoRetriesNextServer` for a caller who supplies
the default 7. -/
theorem LoadProperties_reads_table_defaults_witness :
    (NewDefaultClientConfig "svc" (some noOptionKey)).GetPropertyAsInteger
      MaxAutoRetriesNextServer 7 = 1 :=
  (LoadProperties_reads_table_defaults ⟨NewProperties, noOptionKey, ""⟩ "svc"
    (fun K hK =>
      have hK' : ¬ ('s' :: 'v' :: 'c' :: '.' :: K.data = "color".data) ∧
          ¬ ('s' :: 'v' :: 'c' :: '.' :: K.data = "svc.flavour".data) := by
        revert K
        decide
      ⟨noOptionKey_lookup K (by revert K; decide) (by revert K; decide),
        noOptionKey_lookup _ (fun e => hK'.1 (by rw [← e]; rfl))
          (fun e => hK'.2 (by rw [← e]; rfl))⟩)).2.2.2.2.2.2.2.1 7



/-! ## The texts the typed getters accept, in the words of the Go documentation -/

/-- The number a run of decimal digits denotes, most significant digit first. -/
def decimalValue (ds : List Char) : Nat :=
  Nat.ofDigits 10 (ds.reverse.map (fun c => c.toNat - 48))

/-- A base-10 integer of 64 bits: an optional sign, then one decimal digit or
more and nothing else, denoting a number `n` with `-2^63 ≤ n < 2^63`. -/
def IsBase10Int64 (s : String) (n : Int) : Prop :=
  ∃ ds : List Char, ds ≠ [] ∧ (∀ c ∈ ds, c.isDigit = true) ∧
    (((s.data = ds ∨ s.data = '+' :: ds) ∧ n = (decimalValue ds : Int)) ∨
      (s.data = '-' :: ds ∧ n = -(decimalValue ds : Int))) ∧
    -(2 : Int) ^ 63 ≤ n ∧ n < 2 ^ 63

theorem isDigit_eq (c : Char) : isDigit c = c.isDigit := by
  unfold isDigit Char.isDigit
  have h1 : (c < '0') ↔ ¬ (c.val ≥ 48) := by
    rw [Char.lt_def]; simp [UInt32.lt_def, UInt32.le_def]
  have h2 : (c > '9') ↔ ¬ (c.val ≤ 57) := by
    show ('9' < c) ↔ _
    rw [Char.lt_def]; simp [UInt32.lt_def, UInt32.le_def]
  by_cases a : c < '0'
  · have := h1.mp a
    simp [a, this]
  · have ha := not_not.mp (mt h1.mpr a)
    by_cases b : c > '9'
    · have := h2.mp b
      simp [a, b, this]
    · have hb := not_not.mp (mt h2.mpr b)
      simp [a, b, ha, hb]

theorem digitsValue_of_digits (cs : List Char) (acc : Nat) (h : ∀ c ∈ cs, c.isDigit = true) :
    digitsValue cs acc = some (acc * 10 ^ cs.length + decimalValue cs) := by
  induction cs generalizing acc with
  | nil => simp [digitsValue, decimalValue]
  | cons c cs ih =>
    have hc : isDigit c = true := by rw [isDigit_eq]; exact h c (List.mem_cons_self _ _)
    have hcs : ∀ x ∈ cs, x.isDigit = true := fun x hx => h x (List.mem_cons_of_mem _ hx)
    rw [digitsValue, if_pos hc, ih _ hcs]
    congr 1
    simp only [decimalValue, List.reverse_cons, List.map_append, List.map_cons, List.map_nil,
      Nat.ofDigits_append, Nat.ofDigits_singleton, List.length_map, List.length_reverse,
      List.length_cons]
    ring

theorem digits_of_digitsValue (cs : List Char) (acc r : Nat) (h : digitsValue cs acc = some r) :
    ∀ c ∈ cs, c.isDigit = true := by
  induction cs generalizing acc with
  | nil => intro c hc; exact absurd hc (List.not_mem_nil _)
  | cons c cs ih =>
    rw [digitsValue] at h
    by_cases hc : isDigit c = true
    · rw [if_pos hc] at h
      intro x hx
      rcases List.mem_cons.mp hx with rfl | hx
      · rw [← isDigit_eq]; exact hc
      · exact ih _ h x hx
    · rw [if_neg hc] at h
      exact absurd h (by simp)

theorem digitsValue_eq_some_iff (cs : List Char) (r : Nat) :
    digitsValue cs 0 = some r ↔ (∀ c ∈ cs, c.isDigit = true) ∧ r = decimalValue cs := by
  constructor
  · intro h
    have hd := digits_of_digitsValue cs 0 r h
    rw [digitsValue_of_digits cs 0 hd] at h
    refine ⟨hd, ?_⟩
    have := Option.some.inj h
    omega
  · rintro ⟨hd, rfl⟩
    rw [digitsValue_of_digits cs 0 hd]
    congr 1
    omega

/-- The body of `ParseInt` after the sign has been taken off. -/
theorem parseInt_body_iff (neg : Bool) (body : List Char) (n : Int) :
    (match body with
      | [] => none
      | _ :: _ =>
        match digitsValue body 0 with
        | none => none
        | some un =>
          if !neg && un ≥ 2 ^ 63 then none
          else if neg && un > 2 ^ 63 then none
          else some (if neg then -(un : Int) else (un : Int))) = some n ↔
      body ≠ [] ∧ (∀ c ∈ body, c.isDigit = true) ∧
        n = (if neg then -(decimalValue body : Int) else (decimalValue body : Int)) ∧
        -(2 : Int) ^ 63 ≤ n ∧ n < 2 ^ 63 := by
  have e63 : (2 : Int) ^ 63 = 9223372036854775808 := by norm_num
  have n63 : (2 : Nat) ^ 63 = 9223372036854775808 := by norm_num
  cases body with
  | nil => simp
  | cons b bs =>
    simp only [ne_eq, reduceCtorEq, not_false_eq_true, true_and]
    cases hdv : digitsValue (b :: bs) 0 with
    | none =>
      simp only [false_iff, reduceCtorEq]
      rintro ⟨hd, -⟩
      rw [digitsValue_of_digits _ 0 hd] at hdv
      exact absurd hdv (by simp)
    | some un =>
      obtain ⟨hd, hun⟩ := (digitsValue_eq_some_iff _ _).mp hdv
      rw [← hun]
      cases neg with
      | false =>
        simp only [Bool.not_false, Bool.true_and, Bool.false_and, Bool.false_eq_true, if_false,
          decide_eq_true_eq]
        by_cases hr : un ≥ 2 ^ 63
        · rw [if_pos hr]
          simp only [false_iff, reduceCtorEq]
          rintro ⟨-, rfl, -, h2⟩
          rw [e63] at h2; rw [n63] at hr
          omega
        · rw [if_neg hr]
          rw [n63] at hr
          constructor
          · intro h
            have := Option.some.inj h
            refine ⟨hd, this.symm, ?_, ?_⟩ <;> rw [e63] <;> omega
          · rintro ⟨-, rfl, -⟩
            rfl
      | true =>
        simp only [Bool.not_true, Bool.false_and, Bool.true_and, Bool.false_eq_true, if_false,
          if_true, decide_eq_true_eq]
        by_cases hr : un > 2 ^ 63
        · rw [if_pos hr]
          simp only [false_iff, reduceCtorEq]
          rintro ⟨-, rfl, h1, -⟩
          rw [e63] at h1; rw [n63] at hr
          omega
        · rw [if_neg hr]
          rw [n63] at hr
          constructor
          · intro h
            have := Option.some.inj h
            refine ⟨hd, this.symm, ?_, ?_⟩ <;> rw [e63] <;> omega
          · rintro ⟨-, rfl, -⟩
            rfl

/-- `strconv.ParseInt(s, 10, 64)` accepts exactly the base-10 integers of 64
bits, and returns the number they denote. -/
theorem ParseInt_iff (s : String) (n : Int) : ParseInt s = some n ↔ IsBase10Int64 s n := by
  unfold ParseInt IsBase10Int64
  cases hs : s.data with
  | nil =>
    simp only [reduceCtorEq, false_iff]
    rintro ⟨ds, hne, -, (⟨h | h, -⟩ | ⟨h, -⟩), -⟩
    · exact hne h.symm
    · exact absurd h (by simp)
    · exact absurd h (by simp)
  | cons c cs =>
    simp only []
    by_cases hp : c = '+'
    · subst hp
      have e1 : ((('+' : Char) == '+') || (('+' : Char) == '-')) = true := by decide
      have e2 : (('+' : Char) == '-') = false := by decide
      rw [e1, e2, if_pos rfl, parseInt_body_iff false cs n]
      simp only [Bool.false_eq_true, if_false]
      constructor
      · rintro ⟨hne, hd, hn, hr⟩
        exact ⟨cs, hne, hd, Or.inl ⟨Or.inr rfl, hn⟩, hr⟩
      · rintro ⟨ds, hne, hd, (⟨h | h, hn⟩ | ⟨h, -⟩), hr⟩
        · exact absurd (hd '+' (by rw [← h]; exact List.mem_cons_self _ _)) (by decide)
        · obtain rfl := List.tail_eq_of_cons_eq h
          exact ⟨hne, hd, hn, hr⟩
        · exact absurd (List.head_eq_of_cons_eq h) (by decide)
    · by_cases hm : c = '-'
      · subst hm
        have e1 : ((('-' : Char) == '+') || (('-' : Char) == '-')) = true := by decide
        have e2 : (('-' : Char) == '-') = true := by decide
        rw [e1, e2, if_pos rfl, parseInt_body_iff true cs n]
        simp only [if_true]
        constructor
        · rintro ⟨hne, hd, hn, hr⟩
          exact ⟨cs, hne, hd, Or.inr ⟨rfl, hn⟩, hr⟩
        · rintro ⟨ds, hne, hd, (⟨h | h, -⟩ | ⟨h, hn⟩), hr⟩
          · exact absurd (hd '-' (by rw [← h]; exact List.mem_cons_self _ _)) (by decide)
          · exact absurd (List.head_eq_of_cons_eq h) (by decide)
          · obtain rfl := List.tail_eq_of_cons_eq h
            exact ⟨hne, hd, hn, hr⟩
      · have e1 : ((c == '+') || (c == '-')) = false := by simp [hp, hm]
        have e2 : (c == '-') = false := by simp [hm]
        rw [e1, e2, if_neg (by simp), parseInt_body_iff false (c :: cs) n]
        simp only [Bool.false_eq_true, if_false]
        constructor
        · rintro ⟨hne, hd, hn, hr⟩
          exact ⟨c :: cs, hne, hd, Or.inl ⟨Or.inl rfl, hn⟩, hr⟩
        · rintro ⟨ds, hne, hd, (⟨h | h, hn⟩ | ⟨h, -⟩), hr⟩
          · subst h
            exact ⟨hne, hd, hn, hr⟩
          · exact absurd (List.head_eq_of_cons_eq h) hp
          · exact absurd (List.head_eq_of_cons_eq h) hm

/-- The unit suffixes of a duration string, with their length in nanoseconds. -/
def unitNames : List (List Char × Nat) :=
  [(['n', 's'], 1), (['u', 's'], 1000), (['µ', 's'], 1000), (['μ', 's'], 1000),
    (['m', 's'], 1000000), (['s'], 1000000000), (['m'], 60000000000), (['h'], 3600000000000)]

/-- A sequence of decimal numbers, each with an optional fraction and a unit
suffix, and with a digit before or after the point. -/
inductive IsDurationTerms : List Char → Prop where
  | nil : IsDurationTerms []
  | whole (ds u rest : List Char) (hds : ∀ c ∈ ds, c.isDigit = true) (hne : ds ≠ [])
      (hu : u ∈ unitNames.map Prod.fst) (hrest : IsDurationTerms rest) :
      IsDurationTerms (ds ++ (u ++ rest))
  | point (ds fs u rest : List Char) (hds : ∀ c ∈ ds, c.isDigit = true)
      (hfs : ∀ c ∈ fs, c.isDigit = true) (hne : ds ≠ [] ∨ fs ≠ [])
      (hu : u ∈ unitNames.map Prod.fst) (hrest : IsDurationTerms rest) :
      IsDurationTerms (ds ++ ('.' :: (fs ++ (u ++ rest))))

/-- A duration string in the words of the Go documentation: a possibly signed
sequence of decimal numbers, each with optional fraction and a unit suffix; or
the text `0`, possibly signed. -/
def IsDurationText (s : String) : Prop :=
  ∃ sign body : List Char, s.data = sign ++ body ∧ (sign = [] ∨ sign = ['+'] ∨ sign = ['-']) ∧
    (body = ['0'] ∨ (body ≠ [] ∧ IsDurationTerms body))

theorem isDigit_of_not_outside {c : Char} (h : ¬ ((c < '0' || c > '9') = true)) :
    c.isDigit = true := by
  rw [← isDigit_eq]
  unfold isDigit
  simpa using h

theorem leadingInt_split (s : List Char) (x v : Nat) (s1 : List Char)
    (h : leadingInt s x = some (v, s1)) :
    ∃ ds, s = ds ++ s1 ∧ ∀ c ∈ ds, c.isDigit = true := by
  induction s generalizing x with
  | nil =>
    simp only [leadingInt, Option.some.injEq, Prod.mk.injEq] at h
    exact ⟨[], by simp [h.2], by simp⟩
  | cons c cs ih =>
    rw [leadingInt] at h
    by_cases hc : (c < '0' || c > '9') = true
    · rw [if_pos hc] at h
      simp only [Option.some.injEq, Prod.mk.injEq] at h
      exact ⟨[], by simp [h.2], by simp⟩
    · rw [if_neg hc] at h
      by_cases hx : x > 2 ^ 63 / 10
      · rw [if_pos hx] at h
        exact absurd h (by simp)
      · rw [if_neg hx] at h
        simp only [] at h
        by_cases hy : x * 10 + (c.toNat - 48) > 2 ^ 63
        · rw [if_pos hy] at h
          exact absurd h (by simp)
        · rw [if_neg hy] at h
          obtain ⟨ds, hds, hd⟩ := ih _ h
          refine ⟨c :: ds, by rw [hds]; rfl, ?_⟩
          intro y hy'
          rcases List.mem_cons.mp hy' with rfl | hy'
          · exact isDigit_of_not_outside hc
          · exact hd y hy'

theorem leadingFraction_split (t : List Char) (x scale : Nat) (overflow : Bool) :
    ∃ fs, t = fs ++ (leadingFraction t x scale overflow).2.2 ∧ ∀ c ∈ fs, c.isDigit = true := by
  induction t generalizing x scale overflow with
  | nil => exact ⟨[], by simp [leadingFraction], by simp⟩
  | cons c cs ih =>
    rw [leadingFraction]
    by_cases hc : (c < '0' || c > '9') = true
    · rw [if_pos hc]
      exact ⟨[], by simp, by simp⟩
    · rw [if_neg hc]
      have step : ∀ x' scale' overflow',
          ∃ fs, c :: cs = fs ++ (leadingFraction cs x' scale' overflow').2.2 ∧
            ∀ y ∈ fs, y.isDigit = true := by
        intro x' scale' overflow'
        obtain ⟨fs, hfs, hd⟩ := ih x' scale' overflow'
        refine ⟨c :: fs, by rw [List.cons_append, ← hfs], ?_⟩
        intro y hy'
        rcases List.mem_cons.mp hy' with rfl | hy'
        · exact isDigit_of_not_outside hc
        · exact hd y hy'
      simp only []
      split_ifs
      · exact step _ _ _
      · exact step _ _ _
      · exact step _ _ _
      · exact step _ _ _

theorem unitMap_mem (u : List Char) (unit : Nat) (h : unitMap u = some unit) :
    (u, unit) ∈ unitNames := by
  unfold unitMap at h
  split_ifs at h with h1 h2 h3 h4 h5 h6 h7 h8 <;>
    simp only [Option.some.injEq, reduceCtorEq] at h <;> subst h <;> subst_vars <;> decide

theorem fraction_match_cases (s1 : List Char) :
    (∃ t fs, s1 = '.' :: t ∧
        t = fs ++ (match s1 with
          | '.' :: t =>
            ((leadingFraction t 0 1 false).1, (leadingFraction t 0 1 false).2.1,
              (leadingFraction t 0 1 false).2.2,
              t.length != (leadingFraction t 0 1 false).2.2.length)
          | _ => (0, 1, s1, false)).2.2.1 ∧
        (∀ c ∈ fs, c.isDigit = true) ∧
        ((match s1 with
          | '.' :: t =>
            ((leadingFraction t 0 1 false).1, (leadingFraction t 0 1 false).2.1,
              (leadingFraction t 0 1 false).2.2,
              t.length != (leadingFraction t 0 1 false).2.2.length)
          | _ => (0, 1, s1, false)).2.2.2 = true → fs ≠ [])) ∨
      ((match s1 with
          | '.' :: t =>
            ((leadingFraction t 0 1 false).1, (leadingFraction t 0 1 false).2.1,
              (leadingFraction t 0 1 false).2.2,
              t.length != (leadingFraction t 0 1 false).2.2.length)
          | _ => (0, 1, s1, false)).2.2.1 = s1 ∧
        (match s1 with
          | '.' :: t =>
            ((leadingFraction t 0 1 false).1, (leadingFraction t 0 1 false).2.1,
              (leadingFraction t 0 1 false).2.2,
              t.length != (leadingFraction t 0 1 false).2.2.length)
          | _ => (0, 1, s1, false)).2.2.2 = false) := by
  split
  · rename_i t
    left
    obtain ⟨fs, hfs, hd⟩ := leadingFraction_split t 0 1 false
    refine ⟨t, fs, rfl, hfs, hd, ?_⟩
    intro hpost hnil
    subst hnil
    simp only [List.nil_append] at hfs
    rw [← hfs] at hpost
    simp at hpost
  · right
    exact ⟨rfl, rfl⟩

theorem parseTerms_grammar (fuel : Nat) (s : List Char) (d r : Nat)
    (h : parseTerms fuel s d = some r) : IsDurationTerms s := by
  induction fuel generalizing s d with
  | zero => simp [parseTerms] at h
  | succ fuel ih =>
    cases s with
    | nil => exact IsDurationTerms.nil
    | cons c cs =>
      rw [parseTerms.eq_def] at h
      simp only [] at h
      split_ifs at h with h0
      cases hli : leadingInt (c :: cs) 0 with
      | none => rw [hli] at h; simp at h
      | some p =>
        obtain ⟨v, s1⟩ := p
        rw [hli] at h
        simp only [] at h
        obtain ⟨ds, hds, hdd⟩ := leadingInt_split _ _ _ _ hli
        have hcases := fraction_match_cases s1
        generalize (match s1 with
          | '.' :: t =>
            ((leadingFraction t 0 1 false).1, (leadingFraction t 0 1 false).2.1,
              (leadingFraction t 0 1 false).2.2,
              t.length != (leadingFraction t 0 1 false).2.2.length)
          | _ => (0, 1, s1, false)) = q at h hcases
        obtain ⟨f, scale, s2, post⟩ := q
        simp only [] at h hcases
        by_cases hpp : (!((c :: cs).length != s1.length) && !post) = true
        · rw [if_pos hpp] at h
          exact absurd h (by simp)
        rw [if_neg hpp] at h
        by_cases hu : List.takeWhile (fun c => !(c == '.' || isDigit c)) s2 = []
        · rw [if_pos hu] at h
          exact absurd h (by simp)
        rw [if_neg hu] at h
        cases hum : unitMap (List.takeWhile (fun c => !(c == '.' || isDigit c)) s2) with
        | none => rw [hum] at h; simp at h
        | some unit =>
          rw [hum] at h
          simp only [] at h
          by_cases hv : v > 2 ^ 63 / unit
          · rw [if_pos hv] at h
            exact absurd h (by simp)
          rw [if_neg hv] at h
          have key : ∀ d', parseTerms fuel
              (List.dropWhile (fun c => !(c == '.' || isDigit c)) s2) d' = some r →
              IsDurationTerms (c :: cs) := by
            intro d' h'
            have hrest := ih _ _ h'
            have hmem : List.takeWhile (fun c => !(c == '.' || isDigit c)) s2 ∈
                unitNames.map Prod.fst :=
              List.mem_map_of_mem Prod.fst (unitMap_mem _ _ hum)
            have hs2 : s2 = List.takeWhile (fun c => !(c == '.' || isDigit c)) s2 ++
                List.dropWhile (fun c => !(c == '.' || isDigit c)) s2 :=
              (List.takeWhile_append_dropWhile _ _).symm
            have hpre : ((c :: cs).length != s1.length) = true ↔ ds ≠ [] := by
              rw [hds]
              cases ds
              · simp
              · simp only [List.cons_append, List.length_cons, List.length_append]; simp; omega
            rcases hcases with ⟨t, fs, hs1, ht, hfs, hpost⟩ | ⟨hs2', hpost⟩
            · have hne : ds ≠ [] ∨ fs ≠ [] := by
                by_cases hd0 : ds = []
                · right
                  apply hpost
                  have : ((c :: cs).length != s1.length) = false := by
                    rw [Bool.eq_false_iff]; exact fun hh => hpre.mp hh hd0
                  rw [this] at hpp
                  simpa using hpp
                · exact Or.inl hd0
              rw [hds, hs1, ht, hs2]
              exact IsDurationTerms.point ds fs _ _ hdd hfs hne hmem hrest
            · have hne : ds ≠ [] := by
                apply hpre.mp
                rw [hpost] at hpp
                simpa using hpp
              rw [hds, ← hs2', hs2]
              exact IsDurationTerms.whole ds _ _ hdd hne hmem hrest
          split_ifs at h
          all_goals exact key _ h

/-- What is left of `ParseDuration` once the sign is taken off. -/
theorem parseDuration_body (neg : Bool) (body : List Char) (d : Int)
    (h : (if body = ['0'] then some 0
      else if body = [] then none
      else
        match parseTerms (body.length + 1) body 0 with
        | none => none
        | some d =>
          if neg = true then some (-(d : Int))
          else if d > 2 ^ 63 - 1 then none
          else some (d : Int)) = some d) :
    body = ['0'] ∨ (body ≠ [] ∧ IsDurationTerms body) := by
  by_cases h0 : body = ['0']
  · exact Or.inl h0
  · rw [if_neg h0] at h
    by_cases h1 : body = []
    · rw [if_pos h1] at h
      exact absurd h (by simp)
    · rw [if_neg h1] at h
      cases hp : parseTerms (body.length + 1) body 0 with
      | none => rw [hp] at h; simp at h
      | some r => exact Or.inr ⟨h1, parseTerms_grammar _ _ _ _ hp⟩

/-- `time.ParseDuration` accepts duration strings only. -/
theorem ParseDuration_grammar (s : String) (d : Int) (h : ParseDuration s = some d) :
    IsDurationText s := by
  unfold ParseDuration at h
  simp only [] at h
  cases hs : s.data with
  | nil =>
    rw [hs] at h
    simp at h
  | cons c cs =>
    rw [hs] at h
    simp only [] at h
    by_cases hc : (c == '-' || c == '+') = true
    · rw [if_pos hc] at h
      refine ⟨[c], cs, hs, ?_, parseDuration_body _ _ _ h⟩
      simp only [Bool.or_eq_true, beq_iff_eq] at hc
      rcases hc with rfl | rfl
      · exact Or.inr (Or.inr rfl)
      · exact Or.inr (Or.inl rfl)
    · rw [if_neg hc] at h
      exact ⟨[], c :: cs, hs, Or.inl rfl, parseDuration_body _ _ _ h⟩

theorem decimalValue_cons (c : Char) (ds : List Char) :
    decimalValue (c :: ds) = (c.toNat - 48) * 10 ^ ds.length + decimalValue ds := by
  simp only [decimalValue, List.reverse_cons, List.map_append, List.map_cons, List.map_nil,
    Nat.ofDigits_append, Nat.ofDigits_singleton, List.length_map, List.length_reverse]
  ring

theorem not_outside_of_isDigit {c : Char} (h : c.isDigit = true) :
    ¬ ((c < '0' || c > '9') = true) := by
  rw [← isDigit_eq] at h
  unfold isDigit at h
  simpa using h

/-- `leadingInt` reads a run of digits that ends the text or stops at a
character that is no digit, when the number read stays within `2^63`. -/
theorem leadingInt_digits (ds rest : List Char) (x : Nat) (hds : ∀ c ∈ ds, c.isDigit = true)
    (hrest : rest = [] ∨ ∃ c cs, rest = c :: cs ∧ (c < '0' || c > '9') = true)
    (hle : x * 10 ^ ds.length + decimalValue ds ≤ 2 ^ 63) :
    leadingInt (ds ++ rest) x = some (x * 10 ^ ds.length + decimalValue ds, rest) := by
  induction ds generalizing x with
  | nil =>
    have e : x * 10 ^ ([] : List Char).length + decimalValue [] = x := by
      simp [decimalValue]
    rw [e, List.nil_append]
    rcases hrest with rfl | ⟨c, cs, rfl, hc⟩
    · rfl
    · rw [leadingInt, if_pos hc]
  | cons c ds ih =>
    have hc := not_outside_of_isDigit (hds c (List.mem_cons_self _ _))
    have hds' : ∀ y ∈ ds, y.isDigit = true := fun y hy => hds y (List.mem_cons_of_mem _ hy)
    rw [decimalValue_cons, List.length_cons] at hle ⊢
    have hpos : 1 ≤ 10 ^ ds.length := Nat.one_le_pow _ _ (by norm_num)
    have hle' : (x * 10 + (c.toNat - 48)) * 10 ^ ds.length + decimalValue ds ≤ 2 ^ 63 := by
      have : (x * 10 + (c.toNat - 48)) * 10 ^ ds.length =
          x * 10 ^ (ds.length + 1) + (c.toNat - 48) * 10 ^ ds.length := by ring
      omega
    have hx' : x * 10 + (c.toNat - 48) ≤ 2 ^ 63 := by
      have : x * 10 + (c.toNat - 48) ≤ (x * 10 + (c.toNat - 48)) * 10 ^ ds.length :=
        Nat.le_mul_of_pos_right _ hpos
      omega
    have hx : ¬ x > 2 ^ 63 / 10 := by
      have n63 : (2 : Nat) ^ 63 = 9223372036854775808 := by norm_num
      rw [n63] at hx' ⊢
      omega
    rw [List.cons_append, leadingInt, if_neg hc, if_neg hx]
    simp only []
    rw [if_neg (by omega), ih _ hds' hle']
    congr 2
    ring

/-- What the loop of `ParseDuration` needs of a unit suffix. -/
theorem unitNames_facts : ∀ p ∈ unitNames,
    unitMap p.1 = some p.2 ∧ p.1 ≠ [] ∧
      List.takeWhile (fun c => !(c == '.' || isDigit c)) p.1 = p.1 ∧
      List.dropWhile (fun c => !(c == '.' || isDigit c)) p.1 = [] ∧
      p.1.head? ≠ some '.' ∧
      p.1.head?.map (fun c => (c < '0' || c > '9')) = some true ∧ 1 ≤ p.2 := by
  decide

theorem parseTerms_whole (fuel : Nat) (ds u : List Char) (unit : Nat)
    (hds : ∀ c ∈ ds, c.isDigit = true) (hne : ds ≠ []) (hu : (u, unit) ∈ unitNames)
    (hr : decimalValue ds * unit < 2 ^ 63) :
    parseTerms (fuel + 2) (ds ++ u) 0 = some (decimalValue ds * unit) := by
  obtain ⟨hmap, hune, htake, hdrop, hdot, hhead, hunit⟩ := unitNames_facts _ hu
  simp only [] at hmap hune htake hdrop hdot hhead hunit
  have n63 : (2 : Nat) ^ 63 = 9223372036854775808 := by norm_num
  have n64 : (2 : Nat) ^ 64 = 18446744073709551616 := by norm_num
  have hn : decimalValue ds ≤ 2 ^ 63 := by
    have : decimalValue ds ≤ decimalValue ds * unit := Nat.le_mul_of_pos_right _ hunit
    omega
  have hrest : u = [] ∨ ∃ c cs, u = c :: cs ∧ (c < '0' || c > '9') = true := by
    cases u with
    | nil => exact Or.inl rfl
    | cons c cs =>
      refine Or.inr ⟨c, cs, rfl, ?_⟩
      simpa using hhead
  have hli : leadingInt (ds ++ u) 0 = some (decimalValue ds, u) := by
    have := leadingInt_digits ds u 0 hds hrest (by omega)
    simpa using this
  obtain ⟨c, cs, hcs⟩ : ∃ c cs, ds = c :: cs := by
    cases ds with
    | nil => exact absurd rfl hne
    | cons c cs => exact ⟨c, cs, rfl⟩
  have hc : isDigit c = true := by
    rw [isDigit_eq]; exact hds c (by rw [hcs]; exact List.mem_cons_self _ _)
  have hmatch : (match u with
      | '.' :: t =>
        ((leadingFraction t 0 1 false).1, (leadingFraction t 0 1 false).2.1,
          (leadingFraction t 0 1 false).2.2,
          t.length != (leadingFraction t 0 1 false).2.2.length)
      | _ => (0, 1, u, false)) = (0, 1, u, false) := by
    split
    · exact absurd rfl hdot
    · rfl
  have hlen : ((ds ++ u).length != u.length) = true := by
    rw [hcs]; simp; omega
  have hv : ¬ decimalValue ds > 2 ^ 63 / unit := by
    rw [gt_iff_lt, Nat.div_lt_iff_lt_mul hunit]
    omega
  have hd : ¬ (0 + decimalValue ds * unit) % 2 ^ 64 > 2 ^ 63 := by
    rw [n63, n64]; rw [n63] at hr; omega
  have hd' : (0 + decimalValue ds * unit) % 2 ^ 64 = decimalValue ds * unit := by
    rw [n64]; rw [n63] at hr; omega
  have hstep : parseTerms (fuel + 1 + 1) (ds ++ u) 0 =
      parseTerms (fuel + 1) [] (decimalValue ds * unit) := by
    rw [parseTerms.eq_def]
    simp only []
    rw [hcs, List.cons_append]
    simp only []
    rw [← List.cons_append, ← hcs, hli]
    simp only [hc, Bool.or_true, Bool.not_true, Bool.false_eq_true, if_false]
    rw [hmatch]
    simp only [hlen, htake, hdrop, hmap, hune, if_neg hv, Bool.not_true, Bool.false_and,
      Bool.false_eq_true, if_false, gt_iff_lt, lt_self_iff_false, decide_False,
      hd', if_neg (by rw [hd'] at hd; exact hd)]
  rw [hstep, parseTerms.eq_def]

/-- `time.ParseDuration` accepts a whole number followed by one unit suffix, and
returns the number of nanoseconds, when that number is below `2^63`. -/
theorem ParseDuration_whole (ds u : List Char) (unit : Nat)
    (hds : ∀ c ∈ ds, c.isDigit = true) (hne : ds ≠ []) (hu : (u, unit) ∈ unitNames)
    (hr : decimalValue ds * unit < 2 ^ 63) :
    ParseDuration (String.mk (ds ++ u)) = some ((decimalValue ds * unit : Nat) : Int) := by
  obtain ⟨-, hune, -, -, -, -, -⟩ := unitNames_facts _ hu
  simp only [] at hune
  obtain ⟨c, cs, hcs⟩ : ∃ c cs, ds = c :: cs := by
    cases ds with
    | nil => exact absurd rfl hne
    | cons c cs => exact ⟨c, cs, rfl⟩
  obtain ⟨b, bs, hbs⟩ : ∃ b bs, u = b :: bs := by
    cases u with
    | nil => exact absurd rfl hune
    | cons b bs => exact ⟨b, bs, rfl⟩
  have hcd : c.isDigit = true := hds c (by rw [hcs]; exact List.mem_cons_self _ _)
  have hsign : (c == '-' || c == '+') = false := by
    rw [Bool.eq_false_iff]
    intro h
    simp only [Bool.or_eq_true, beq_iff_eq] at h
    rcases h with rfl | rfl
    · exact absurd hcd (by decide)
    · exact absurd hcd (by decide)
  have hneg : ((c :: (cs ++ u)).head? == some '-') = false := by
    rw [Bool.eq_false_iff]
    intro h
    simp only [List.head?_cons, beq_iff_eq, Option.some.injEq] at h
    subst h
    exact absurd hcd (by decide)
  have hzero : ¬ (c :: (cs ++ u) = ['0']) := by
    intro h
    have := congrArg List.length h
    rw [hbs] at this
    simp at this
  have hfuel : (c :: (cs ++ u)).length + 1 = (cs.length + bs.length + 1) + 2 := by
    rw [hbs]; simp only [List.length_cons, List.length_append]; omega
  have hbig : ¬ decimalValue ds * unit > 2 ^ 63 - 1 :=
    Nat.not_lt.mpr (Nat.le_sub_one_of_lt hr)
  unfold ParseDuration
  simp only []
  rw [hcs, List.cons_append]
  simp only [hsign, hneg, Bool.false_eq_true, if_false, if_neg hzero, reduceCtorEq]
  rw [hfuel, ← List.cons_append, ← hcs, parseTerms_whole _ ds u unit hds hne hu hr]
  simp only [if_neg hbig]

theorem boolVal_iff (v : String) :
    boolVal v = true ↔
      (v.toLower = "1" ∨ v.toLower = "true" ∨ v.toLower = "yes" ∨ v.toLower = "on") := by
  have e : v.toLower = String.mk (v.data.map Char.toLower) := by
    unfold String.toLower
    rw [String.map_eq]
  rw [e]
  unfold boolVal
  simp only [Bool.or_eq_true, beq_iff_eq, or_assoc]

theorem unitNames_letter : ∀ p ∈ unitNames, ∃ c ∈ p.1, c.isDigit = false ∧ c ≠ '.' := by
  decide

/-- A non-empty sequence of duration terms holds a character of a unit suffix,
which is neither a digit nor the point. -/
theorem IsDurationTerms.has_letter {body : List Char} (h : IsDurationTerms body)
    (hne : body ≠ []) : ∃ c ∈ body, c.isDigit = false ∧ c ≠ '.' := by
  cases h with
  | nil => exact absurd rfl hne
  | whole ds u rest hds hn hu hrest =>
    obtain ⟨p, hp, rfl⟩ := List.mem_map.mp hu
    obtain ⟨c, hc, h1, h2⟩ := unitNames_letter p hp
    exact ⟨c, List.mem_append_right _ (List.mem_append_left _ hc), h1, h2⟩
  | point ds fs u rest hds hfs hn hu hrest =>
    obtain ⟨p, hp, rfl⟩ := List.mem_map.mp hu
    obtain ⟨c, hc, h1, h2⟩ := unitNames_letter p hp
    exact ⟨c, List.mem_append_right _ (List.mem_cons_of_mem _
      (List.mem_append_right _ (List.mem_append_left _ hc))), h1, h2⟩

/-- A text of digits only, other than `0`, is no duration string: the unit is
missing. -/
theorem not_IsDurationText_of_digits (s : String) (hd : ∀ c ∈ s.data, c.isDigit = true)
    (h0 : s.data ≠ ['0']) : ¬ IsDurationText s := by
  rintro ⟨sign, body, hs, hsign, hbody⟩
  have hsign' : sign = [] := by
    rcases hsign with h | h | h
    · exact h
    · subst h
      exact absurd (hd '+' (by rw [hs]; exact List.mem_cons_self _ _)) (by decide)
    · subst h
      exact absurd (hd '-' (by rw [hs]; exact List.mem_cons_self _ _)) (by decide)
  subst hsign'
  rw [List.nil_append] at hs
  rcases hbody with h | ⟨hne, ht⟩
  · exact h0 (hs.trans h)
  · obtain ⟨c, hc, h1, -⟩ := ht.has_letter hne
    rw [← hs] at hc
    rw [hd c hc] at h1
    exact absurd h1 (by simp)

/-- C4, as amended, for an internal layer whose texts hold no `${` reference.
When the key is absent, each typed getter returns the caller's default.  When
the key holds a text: `GetPropertyAsInteger` returns the default if the text is
no base-10 integer of 64 bits, and the number it denotes otherwise;
`GetPropertyAsDuration` returns the default if the text is no duration string,
and more generally whenever `time.ParseDuration` refuses it, and it returns the
nanoseconds of a whole number with one unit suffix; `GetPropertyAsBool` never
falls back to the default: it returns true exactly when the lower-cased text is
one of `1`, `true`, `yes`, `on`. -/
theorem typed_getters_default (c : DefaultClientConfig) (key : String) :
    (c.InternalProperties.lookup key = none →
      (∀ d : Int, c.GetPropertyAsInteger key d = d) ∧
      (∀ d : Int, c.GetPropertyAsDuration key d = d) ∧
      (∀ d : Bool, c.GetPropertyAsBool key d = d)) ∧
    (∀ v : PlainText, c.InternalProperties.lookup key = some v →
      ((¬ ∃ n, IsBase10Int64 v.val n) → ∀ d : Int, c.GetPropertyAsInteger key d = d) ∧
      (∀ n, IsBase10Int64 v.val n → ∀ d : Int, c.GetPropertyAsInteger key d = n) ∧
      (¬ IsDurationText v.val → ∀ d : Int, c.GetPropertyAsDuration key d = d) ∧
      (ParseDuration v.val = none → ∀ d : Int, c.GetPropertyAsDuration key d = d) ∧
      (∀ (ds u : List Char) (unit : Nat), v.val = String.mk (ds ++ u) →
        (∀ x ∈ ds, x.isDigit = true) → ds ≠ [] → (u, unit) ∈ unitNames →
        decimalValue ds * unit < 2 ^ 63 →
        ∀ d : Int, c.GetPropertyAsDuration key d = ((decimalValue ds * unit : Nat) : Int)) ∧
      (∀ d : Bool, c.GetPropertyAsBool key d = true ↔
        (v.val.toLower = "1" ∨ v.val.toLower = "true" ∨ v.val.toLower = "yes" ∨
          v.val.toLower = "on"))) := by
  refine ⟨fun h => ⟨fun d => ?_, fun d => ?_, fun d => ?_⟩, fun v h => ⟨?_, ?_, ?_, ?_, ?_, ?_⟩⟩
  · simp only [GetPropertyAsInteger, Properties.GetInt, Properties.Get, h]
  · simp only [GetPropertyAsDuration, Properties.GetParsedDuration, Properties.Get, h]
  · simp only [GetPropertyAsBool, Properties.GetBool, Properties.Get, h]
  · intro hn d
    have hp : ParseInt v.val = none := by
      cases hq : ParseInt v.val with
      | none => rfl
      | some n => exact absurd ⟨n, (ParseInt_iff _ _).mp hq⟩ hn
    simp only [GetPropertyAsInteger, Properties.GetInt, Properties.Get, h, hp]
  · intro n hn d
    have hp : ParseInt v.val = some n := (ParseInt_iff _ _).mpr hn
    simp only [GetPropertyAsInteger, Properties.GetInt, Properties.Get, h, hp]
  · intro hn d
    have hp : ParseDuration v.val = none := by
      cases hq : ParseDuration v.val with
      | none => rfl
      | some n => exact absurd (ParseDuration_grammar _ _ hq) hn
    simp only [GetPropertyAsDuration, Properties.GetParsedDuration, Properties.Get, h, hp]
  · intro hp d
    simp only [GetPropertyAsDuration, Properties.GetParsedDuration, Properties.Get, h, hp]
  · intro ds u unit hv hds hne hu hr d
    have hp : ParseDuration v.val = some ((decimalValue ds * unit : Nat) : Int) := by
      rw [hv]; exact ParseDuration_whole ds u unit hds hne hu hr
    simp only [GetPropertyAsDuration, Properties.GetParsedDuration, Properties.Get, h, hp]
  · intro d
    simp only [GetPropertyAsBool, Properties.GetBool, Properties.Get, h]
    exact boolVal_iff v.val

/-- An external layer that sets options of `svc` to texts of the right and of
the wrong kind. -/
def mixedKinds : Properties :=
  ⟨[("svc.port", ⟨"eighty", by decide⟩), ("svc.maxAutoRetries", ⟨"+3", by decide⟩),
    ("svc.connectTimeout", ⟨"2", by decide⟩), ("svc.readWriteTimeout", ⟨"7s", by decide⟩),
    ("svc.enableConnectionPool", ⟨"maybe", by decide⟩)]⟩

/-- Witness for C4 as amended: for a caller who supplies 7, a port of `eighty`
reads 7 and retries of `+3` read 3, a timeout of `2` without unit reads 7 and a
timeout of `7s` reads seven seconds; a missing switch reads as the caller's
`true`. -/
theorem typed_getters_default_witness :
    (NewDefaultClientConfig "svc" (some mixedKinds)).GetPropertyAsInteger "port" 7 = 7 ∧
      (NewDefaultClientConfig "svc" (some mixedKinds)).GetPropertyAsInteger "maxAutoRetries" 7 =
        3 ∧
      (NewDefaultClientConfig "svc" (some mixedKinds)).GetPropertyAsDuration "connectTimeout" 7 =
        7 ∧
      (NewDefaultClientConfig "svc" (some mixedKinds)).GetPropertyAsDuration "readWriteTimeout" 7 =
        7000000000 ∧
      (NewDefaultClientConfig "svc" (some mixedKinds)).GetPropertyAsBool "missing" true = true :=
  ⟨((typed_getters_default (NewDefaultClientConfig "svc" (some mixedKinds)) "port").2
      ⟨"eighty", by decide⟩ (by decide)).1
      (fun ⟨n, hn⟩ => Option.noConfusion
        ((show ParseInt "eighty" = none by decide).symm.trans ((ParseInt_iff _ n).mpr hn))) 7,
    ((typed_getters_default (NewDefaultClientConfig "svc" (some mixedKinds)) "maxAutoRetries").2
      ⟨"+3", by decide⟩ (by decide)).2.1 3
      ((ParseInt_iff "+3" 3).mp (by decide)) 7,
    ((typed_getters_default (NewDefaultClientConfig "svc" (some mixedKinds)) "connectTimeout").2
      ⟨"2", by decide⟩ (by decide)).2.2.1
      (not_IsDurationText_of_digits "2" (by decide) (by decide)) 7,
    (((typed_getters_default (NewDefaultClientConfig "svc" (some mixedKinds))
      "readWriteTimeout").2 ⟨"7s", by decide⟩ (by decide)).2.2.2.2.1 ['7'] ['s'] 1000000000 rfl
      (by decide) (by decide) (by decide) (by decide) 7).trans (by decide),
    ((typed_getters_default (NewDefaultClientConfig "svc" (some mixedKinds)) "missing").1
      (by decide)).2.2 true⟩

/-- Whether the call is the call of `ExecuteWithLoadBalancer`. -/
def Event.isExecuteWithLoadBalancer : Event → Bool
  | .executeWithLoadBalancer _ _ => true
  | _ => false

/-- One call of `RegisterBeforeHook` or of `RegisterAfterHook`, with its
arguments. -/
inductive Registration where
  | before (hooks : List BeforeHTTPHook)
  | after (hooks : List AfterHTTHook)

/-- The call on a client. -/
def Registration.apply (c : LoadBalancerHTTPClient) : Registration → LoadBalancerHTTPClient
  | .before hooks => c.RegisterBeforeHook hooks
  | .after hooks => c.RegisterAfterHook hooks

end Marathon
